/-
  Verification of core subsystems of the groufix graphics engine
  (render graph `src/groufix/core/graph.c`, resource references
  `src/groufix/core/ref.c`, format registry `src/groufix/core/format.c`)
  against its natural-language specification.

  The C sources are shallowly embedded: vectors (`GFXVec`) become `List`,
  the external pass build/warmup entry points (`_gfx_pass_build`,
  `_gfx_pass_warmup`, realized in the backend) become boolean oracles,
  and side effects (logging, destruction of backend objects) become an
  explicit event trace returned alongside the new state.
-/
import Mathlib

namespace Groufix

/-! ## Render graph model (graph.c) -/

/-- Graph state enumeration (`objects.h`), strict progression
    `EMPTY < INVALID < VALIDATED < WARMED < BUILT`. -/
inductive GraphState where
  | empty
  | invalid
  | validated
  | warmed
  | built
deriving DecidableEq, Repr

/-- Numeric value of a graph state, realizing the C enum ordering. -/
def GraphState.toNat : GraphState → Nat
  | .empty     => 0
  | .invalid   => 1
  | .validated => 2
  | .warmed    => 3
  | .built     => 4

/-- A pass (`struct GFXPass` in objects.h), restricted to the fields the
    graph code reads: its identity (standing in for the C pointer), its
    `level`, its `order`, its window backing index (`build.backing`,
    `SIZE_MAX` when none) and the identities of its parent passes. -/
structure Pass where
  uid     : Nat
  level   : Nat
  order   : Nat
  backing : Nat
  parents : List Nat
deriving DecidableEq, Repr

/-- The render graph portion of `GFXRenderer` (objects.h):
    a sink vector, a pass vector (submission order) and the state. -/
structure Graph where
  sinks  : List Pass
  passes : List Pass
  state  : GraphState
deriving DecidableEq, Repr

/-- Observable side effects of the graph entry points. -/
inductive GraphEvent where
  /-- `_gfx_pass_destruct` was invoked on the pass with this uid. -/
  | destructPass (uid : Nat)
  /-- `_gfx_render_graph_purge` ran. -/
  | purge
  /-- `_gfx_render_graph_analyze` ran. -/
  | analyze
  /-- `_gfx_pass_warmup` was invoked on the pass with this uid. -/
  | warmupPass (uid : Nat)
  /-- `_gfx_pass_build` was invoked on the pass with this uid,
      with the given recreate flags. -/
  | buildPass (uid : Nat) (flags : Nat)
  /-- `gfx_log_error`/`gfx_log_warn` reported this many failed passes. -/
  | logFailed (count : Nat)
deriving DecidableEq, Repr

/-- `_gfx_render_graph_init`: empty sink and pass vectors;
    "No graph is a valid graph", the state starts as BUILT. -/
def _gfx_render_graph_init : Graph :=
  { sinks := [], passes := [], state := .built }

/-- `_gfx_render_graph_purge`: destruct all passes (leaving the pass
    vector itself untouched), state becomes EMPTY. -/
def _gfx_render_graph_purge (g : Graph) : Graph × List GraphEvent :=
  ({ g with state := .empty },
   GraphEvent.purge :: g.passes.map (fun p => GraphEvent.destructPass p.uid))

/-- `_gfx_render_graph_analyze`: the analysis is currently a no-op (TODO
    in the source); it marks the graph VALIDATED and always succeeds. -/
def _gfx_render_graph_analyze (g : Graph) : Graph × Bool × List GraphEvent :=
  ({ g with state := .validated }, true, [GraphEvent.analyze])

/-- `_gfx_render_graph_warmup`, with `_gfx_pass_warmup` abstracted as the
    oracle `ok` (it lives outside the graph translation unit). -/
def _gfx_render_graph_warmup (ok : Pass → Bool) (g : Graph) :
    Graph × Bool × List GraphEvent :=
  -- Already done.
  if GraphState.warmed.toNat ≤ g.state.toNat then (g, true, [])
  else
    -- With the same logic as building; we purge all things first.
    let (g1, ev1) :=
      if g.state = .invalid then _gfx_render_graph_purge g else (g, [])
    -- If not valid yet, analyze the graph (it always succeeds).
    let (g2, _, ev2) :=
      if g1.state.toNat < GraphState.validated.toNat then
        _gfx_render_graph_analyze g1
      else (g1, true, [])
    -- And then make sure all passes are warmed up!
    let ev3 := g2.passes.map (fun p => GraphEvent.warmupPass p.uid)
    let failed := (g2.passes.filter (fun p => !(ok p))).length
    if 0 < failed then
      (g2, false, ev1 ++ ev2 ++ ev3 ++ [GraphEvent.logFailed failed])
    else
      ({ g2 with state := .warmed }, true, ev1 ++ ev2 ++ ev3)

/-- `_gfx_render_graph_build`, with `_gfx_pass_build` abstracted as the
    oracle `ok` applied to a pass and its recreate flags (0 here).
    The loop also sneakedly assigns every pass its dense `order`. -/
def _gfx_render_graph_build (ok : Pass → Nat → Bool) (g : Graph) :
    Graph × Bool × List GraphEvent :=
  -- Already done.
  if g.state = .built then (g, true, [])
  else
    -- When the graph is not valid, it needs to be entirely rebuilt.
    let (g1, ev1) :=
      if g.state = .invalid then _gfx_render_graph_purge g else (g, [])
    -- If not valid yet, analyze the graph (it always succeeds).
    let (g2, _, ev2) :=
      if g1.state.toNat < GraphState.validated.toNat then
        _gfx_render_graph_analyze g1
      else (g1, true, [])
    -- So now make sure all the passes in the graph are built.
    let ev3 := g2.passes.map (fun p => GraphEvent.buildPass p.uid 0)
    let failed := (g2.passes.filter (fun p => !(ok p 0))).length
    let passes' := g2.passes.mapIdx (fun i p => { p with order := i })
    let g3 := { g2 with passes := passes' }
    if 0 < failed then
      (g3, false, ev1 ++ ev2 ++ ev3 ++ [GraphEvent.logFailed failed])
    else
      ({ g3 with state := .built }, true, ev1 ++ ev2 ++ ev3)

/-- `_gfx_render_graph_rebuild`: rebuild all passes whose `build.backing`
    equals the attachment index; failures downgrade to VALIDATED. -/
def _gfx_render_graph_rebuild (ok : Pass → Nat → Bool) (g : Graph)
    (index : Nat) (flags : Nat) : Graph × List GraphEvent :=
  -- Nothing to rebuild if nothing is built.
  if g.state.toNat < GraphState.warmed.toNat then (g, [])
  else
    let ev := (g.passes.filter (fun p => p.backing == index)).map
      (fun p => GraphEvent.buildPass p.uid flags)
    let failed := (g.passes.filter
      (fun p => p.backing == index && !(ok p flags))).length
    if 0 < failed then
      ({ g with state := .validated }, ev ++ [GraphEvent.logFailed failed])
    else (g, ev)

/-- The backwards linear search of `gfx_renderer_add_pass` for the place
    to insert the new pass: starting at `loc = passes.size`, decrement
    while the pass left of `loc` has a level greater than `level`. -/
def findInsertLoc (passes : List Pass) (level : Nat) : Nat → Nat
  | 0 => 0
  | loc + 1 =>
    match passes.get? loc with
    | some q => if q.level ≤ level then loc + 1 else findInsertLoc passes level loc
    | none => findInsertLoc passes level loc

/-- The sink-removal loop of `gfx_renderer_add_pass`: walk `t` from
    `sinks.size - 1` down to `1`, erasing the sink at `t - 1` when it is
    one of the new pass's parents (pointer comparison). The last element
    (the pass just pushed) is skipped. -/
def removeSinksLoop (parents : List Pass) : List Pass → Nat → List Pass
  | sinks, 0 => sinks
  | sinks, t + 1 =>
    let sinks' :=
      match sinks.get? t with
      | some s => if s ∈ parents then sinks.eraseIdx t else sinks
      | none => sinks
    removeSinksLoop parents sinks' t

/-- Modelled from the spec: `_gfx_create_pass` (pass.c, not part of the
    sources at hand) assigns the new pass `level = 1 + max(parent.level)`
    over its parents, or `0` when it has no parents; it stores the parent
    pointers and starts with no build output (`backing = SIZE_MAX`,
    modelled as an arbitrary sentinel, and `order = 0`). -/
def _gfx_create_pass (parents : List Pass) (uid : Nat) : Pass :=
  { uid     := uid
    level   := if parents = [] then 0
               else 1 + (parents.map Pass.level).foldr Nat.max 0
    order   := 0
    backing := 0
    parents := parents.map Pass.uid }

/-- `gfx_renderer_add_pass` (success path): create the pass, push it on
    the sink vector, insert it into the pass vector at the position found
    by the backwards level search, remove now-non-sink parents from the
    sink vector, and update the graph state. Returns the new graph and
    the created pass. `parents` are the dereferenced parent pointers. -/
def gfx_renderer_add_pass (g : Graph) (parents : List Pass) (uid : Nat) :
    Graph × Pass :=
  let pass := _gfx_create_pass parents uid
  -- Add the new pass as a sink, as it has no 'children' yet.
  let sinks1 := g.sinks ++ [pass]
  -- Find the right place to insert the new pass at (pre-sort on level).
  let loc := findInsertLoc g.passes pass.level g.passes.length
  -- Insert at found position.
  let passes1 := g.passes.insertIdx loc pass
  -- Loop through all sinks, remove if it's now a parent.
  let sinks2 := removeSinksLoop parents sinks1 (sinks1.length - 1)
  -- We added a pass, we need to re-analyze.
  let state1 :=
    if g.state ≠ .empty then
      if 1 < passes1.length then GraphState.invalid else GraphState.empty
    else g.state
  ({ sinks := sinks2, passes := passes1, state := state1 }, pass)

/-! ## Resource reference model (ref.c, refs.h) -/

/-- Reference type tags (`GFXReference.type` in refs.h). -/
inductive RefType where
  | buffer
  | image
  | primitiveVertices
  | primitiveIndices
  | groupBuffer
  | groupImage
  | attachment
  | empty
deriving DecidableEq, Repr

/-- `GFXReference` (refs.h): type tag, referenced object (`void* obj`,
    modelled as an index into the arena of the tag's object kind, with
    buffer references indexing the buffer arena), byte offset, and the
    two selector values. -/
structure GFXReference where
  type   : RefType
  obj    : Nat
  offset : Nat
  value0 : Nat
  value1 : Nat
deriving DecidableEq, Repr

/-- `GFX_REF_NULL`. -/
def GFX_REF_NULL : GFXReference :=
  { type := .empty, obj := 0, offset := 0, value0 := 0, value1 := 0 }

/-- `GFX_REF_IS_NULL`. -/
def GFX_REF_IS_NULL (ref : GFXReference) : Bool :=
  ref.type = .empty

/-- A `_GFXBuffer` as ref.c reads it: its address is its index in the
    world's buffer arena; `size` and `flags` are `base.size`/`base.flags`
    and `context` stands for `heap->allocator.context`. -/
structure BufferObj where
  size    : Nat
  flags   : Nat
  context : Nat
deriving DecidableEq, Repr

/-- A `_GFXImage` as ref.c reads it. -/
structure ImageObj where
  flags   : Nat
  context : Nat
deriving DecidableEq, Repr

/-- A `_GFXPrimitive` as ref.c reads it: counts and stride from `base`,
    the per-topic flags, the vertex/index buffer references, and the
    address (buffer-arena index) of its embedded `_GFXBuffer`. -/
structure PrimitiveObj where
  numVertices : Nat
  numIndices  : Nat
  stride      : Nat
  flagsVertex : Nat
  flagsIndex  : Nat
  refVertex   : GFXReference
  refIndex    : GFXReference
  buffer      : Nat
deriving DecidableEq, Repr

/-- `GFXBinding` kinds (public heap header). -/
inductive BindingType where
  | buffer
  | image
deriving DecidableEq, Repr

/-- A `GFXBinding` as ref.c reads it: its type, its `count` and its
    stored buffer/image references. -/
structure Binding where
  type    : BindingType
  count   : Nat
  buffers : List GFXReference
  images  : List GFXReference
deriving DecidableEq, Repr

/-- A `_GFXGroup` as ref.c reads it: `base.flags`, the address
    (buffer-arena index) of its embedded `_GFXBuffer`, and its bindings. -/
structure GroupObj where
  flags       : Nat
  buffer      : Nat
  numBindings : Nat
  bindings    : List Binding
deriving DecidableEq, Repr

/-- Attachment types (`_GFXAttach.type` in objects.h). -/
inductive AttachType where
  | empty
  | image (flags : Nat)
  | window
deriving DecidableEq, Repr

/-- `type == _GFX_ATTACH_IMAGE`. -/
def AttachType.isImage : AttachType → Bool
  | .image _ => true
  | _ => false

/-- A `GFXRenderer` as ref.c reads it: its context and its render
    backing's attachment vector. -/
structure RendererObj where
  context : Nat
  attachs : List AttachType
deriving DecidableEq, Repr

/-- The arenas holding every referenceable object; a reference's `obj`
    pointer is an index into the arena selected by its type tag. -/
structure World where
  buffers    : List BufferObj
  images     : List ImageObj
  primitives : List PrimitiveObj
  groups     : List GroupObj
  renderers  : List RendererObj
deriving Repr

def defaultBuffer : BufferObj := { size := 0, flags := 0, context := 0 }
def defaultImage : ImageObj := { flags := 0, context := 0 }
def defaultPrimitive : PrimitiveObj :=
  { numVertices := 0, numIndices := 0, stride := 0, flagsVertex := 0
    flagsIndex := 0, refVertex := GFX_REF_NULL, refIndex := GFX_REF_NULL
    buffer := 0 }
def defaultBinding : Binding :=
  { type := .buffer, count := 0, buffers := [], images := [] }
def defaultGroup : GroupObj :=
  { flags := 0, buffer := 0, numBindings := 0, bindings := [] }
def defaultRenderer : RendererObj := { context := 0, attachs := [] }

/-- Warnings emitted through `_GFX_CHECK_RESOLVE` / `_GFX_CHECK_UNPACK`
    (one constructor per `gfx_log_warn` site in ref.c). -/
inductive RefWarn where
  | resolveNoVertexBuffer
  | resolveNoIndexBuffer
  | resolveNoGroupBuffer
  | resolveGroupBufferNotBuffer
  | resolveNoGroupImage
  | resolveGroupImageNotImage
  | resolveNoAttachment
  | resolveAttachmentNotImage
  | unpackBufferOOB
  | unpackVertexOOB
  | unpackIndexOOB
  | unpackGroupBufferOOB
deriving DecidableEq, Repr

/-- One step of `_gfx_ref_resolve`'s switch: compute the recursive
    reference `rec` (or fail validation, returning `GFX_REF_NULL` for the
    whole resolution together with the warning). The C recursion is
    driven by `resolveFuel`. -/
def resolveSwitch (w : World) (ref : GFXReference) :
    Except (List RefWarn) GFXReference :=
  match ref.type with
  | .primitiveVertices =>
    let p := w.primitives.getD ref.obj defaultPrimitive
    if ¬ (0 < p.numVertices) then .error [.resolveNoVertexBuffer]
    else .ok { p.refVertex with offset := p.refVertex.offset + ref.offset }
  | .primitiveIndices =>
    let p := w.primitives.getD ref.obj defaultPrimitive
    if ¬ (0 < p.numIndices) then .error [.resolveNoIndexBuffer]
    else .ok { p.refIndex with offset := p.refIndex.offset + ref.offset }
  | .groupBuffer =>
    let g := w.groups.getD ref.obj defaultGroup
    let binding := g.bindings.getD ref.value0 defaultBinding
    if ¬ (ref.value0 < g.numBindings ∧ ref.value1 < binding.count) then
      .error [.resolveNoGroupBuffer]
    else if ¬ (binding.type = .buffer) then
      .error [.resolveGroupBufferNotBuffer]
    else
      let rec' := binding.buffers.getD ref.value1 GFX_REF_NULL
      -- If referencing the group's buffer, just return the group ref.
      if rec'.obj = g.buffer then .ok GFX_REF_NULL
      else .ok { rec' with offset := rec'.offset + ref.offset }
  | .groupImage =>
    let g := w.groups.getD ref.obj defaultGroup
    let binding := g.bindings.getD ref.value0 defaultBinding
    if ¬ (ref.value0 < g.numBindings ∧ ref.value1 < binding.count) then
      .error [.resolveNoGroupImage]
    else if ¬ (binding.type = .image) then
      .error [.resolveGroupImageNotImage]
    else .ok (binding.images.getD ref.value1 GFX_REF_NULL)
  | .attachment =>
    let r := w.renderers.getD ref.obj defaultRenderer
    if ¬ (ref.value0 < r.attachs.length) then .error [.resolveNoAttachment]
    else if ¬ (r.attachs.getD ref.value0 .empty).isImage then
      .error [.resolveAttachmentNotImage]
    else .ok GFX_REF_NULL
  | _ =>
    -- GFX_REF_BUFFER and GFX_REF_IMAGE cannot further resolve.
    .ok GFX_REF_NULL

/-- `_gfx_ref_resolve`, with explicit fuel standing for the C recursion
    (which the source assumes terminates: no reference cycles exist).
    Validation failures return `GFX_REF_NULL` plus the warning. -/
def resolveFuel (w : World) : Nat → GFXReference →
    GFXReference × List RefWarn
  | 0, ref => (ref, [])
  | fuel + 1, ref =>
    match resolveSwitch w ref with
    | .error warns => (GFX_REF_NULL, warns)
    | .ok rec' =>
      -- Recursively resolve.
      if GFX_REF_IS_NULL rec' then (ref, [])
      else resolveFuel w fuel rec'

/-- Fuel sufficient for every acyclic reference chain in ref.c (chains
    have length at most 2: composite → buffer/image). -/
def resolveFuelBound : Nat := 8

/-- `_gfx_ref_resolve`. -/
def _gfx_ref_resolve (w : World) (ref : GFXReference) :
    GFXReference × List RefWarn :=
  resolveFuel w resolveFuelBound ref

/-- The exclusive object of a `_GFXUnpackRef` (union `obj` in
    objects.h): at most one of buffer, image, renderer. -/
inductive UnpackObj where
  | null
  | buffer (addr : Nat)
  | image (addr : Nat)
  | renderer (addr : Nat)
deriving DecidableEq, Repr

/-- `_GFXUnpackRef`: the elementary form of a reference. -/
structure UnpackRef where
  obj     : UnpackObj
  flags   : Nat
  context : Nat
  value   : Nat
deriving DecidableEq, Repr

/-- `_GFX_UNPACK_REF_EMPTY`. -/
def UNPACK_REF_EMPTY : UnpackRef :=
  { obj := .null, flags := 0, context := 0, value := 0 }

/-- `_GFX_CHECK_UNPACK eval warning`: when `ndebug` is set the check
    vanishes; otherwise a failed check logs the warning but does not
    alter the unpacked value ("No return, behaves as if ndebug"). -/
def checkUnpack (ndebug : Bool) (eval : Prop) [Decidable eval]
    (warning : RefWarn) : List RefWarn :=
  if ndebug then [] else if eval then [] else [warning]

/-- `_gfx_ref_unpack`: resolve, then fill the unpacked reference,
    bounds-checking byte offsets against the owning buffer's size.
    `ndebug` selects a release (`NDEBUG`) or debug build. -/
def _gfx_ref_unpack (ndebug : Bool) (w : World) (ref0 : GFXReference) :
    UnpackRef × List RefWarn :=
  let (ref, rwarns) := _gfx_ref_resolve w ref0
  match ref.type with
  | .buffer =>
    let b := w.buffers.getD ref.obj defaultBuffer
    let unp : UnpackRef :=
      { obj := .buffer ref.obj, flags := b.flags, context := b.context
        value := ref.offset }
    (unp, rwarns ++ checkUnpack ndebug (unp.value < b.size) .unpackBufferOOB)
  | .image =>
    let i := w.images.getD ref.obj defaultImage
    ({ obj := .image ref.obj, flags := i.flags, context := i.context
       value := 0 }, rwarns)
  | .primitiveVertices =>
    let p := w.primitives.getD ref.obj defaultPrimitive
    let b := w.buffers.getD p.buffer defaultBuffer
    let unp : UnpackRef :=
      { obj := .buffer p.buffer, flags := p.flagsVertex
        context := b.context, value := ref.offset }
    (unp, rwarns ++ checkUnpack ndebug (unp.value < b.size) .unpackVertexOOB)
  | .primitiveIndices =>
    let p := w.primitives.getD ref.obj defaultPrimitive
    let b := w.buffers.getD p.buffer defaultBuffer
    -- The source reads `ref.offset + GFX_REF_IS_NULL(refVertex) ?
    -- numVertices * stride : 0`: C precedence groups the addition into
    -- the condition of `?:` instead of adding the augment to the offset.
    let unp : UnpackRef :=
      { obj := .buffer p.buffer, flags := p.flagsIndex
        context := b.context
        value :=
          if ref.offset + (if GFX_REF_IS_NULL p.refVertex then 1 else 0) ≠ 0
          then p.numVertices * p.stride else 0 }
    (unp, rwarns ++ checkUnpack ndebug (unp.value < b.size) .unpackIndexOOB)
  | .groupBuffer =>
    let g := w.groups.getD ref.obj defaultGroup
    let b := w.buffers.getD g.buffer defaultBuffer
    let binding := g.bindings.getD ref.value0 defaultBinding
    let unp : UnpackRef :=
      { obj := .buffer g.buffer, flags := g.flags, context := b.context
        -- Augment offset into the group's buffer.
        value := ref.offset +
          (binding.buffers.getD ref.value1 GFX_REF_NULL).offset }
    (unp, rwarns ++
      checkUnpack ndebug (unp.value < b.size) .unpackGroupBufferOOB)
  | .attachment =>
    let r := w.renderers.getD ref.obj defaultRenderer
    let flags := match r.attachs.getD ref.value0 .empty with
      | .image f => f
      | _ => 0
    ({ obj := .renderer ref.obj, flags := flags, context := r.context
       value := ref.value0 }, rwarns)
  | _ =>
    -- GFX_REF_GROUP_IMAGE always resolves to a non-group ref.
    (UNPACK_REF_EMPTY, rwarns)

/-! ## Format registry model (format.c) -/

/-- `GFXFormat` as format.c reads it: component bit depths, a type
    bitmask and an order bitmask (public formats header). -/
structure GFXFormat where
  comps0 : Nat
  comps1 : Nat
  comps2 : Nat
  comps3 : Nat
  type   : Nat
  order  : Nat
deriving DecidableEq, Repr

/-- `GFX_FORMAT_EMPTY`. -/
def GFX_FORMAT_EMPTY : GFXFormat :=
  { comps0 := 0, comps1 := 0, comps2 := 0, comps3 := 0, type := 0, order := 0 }

/-- `GFX_DIFF` (def.h). -/
def GFX_DIFF (x y : Nat) : Nat := if x > y then x - y else y - x

/-- `_GFX_GET_DISTANCE`: L1 distance of the channel bit-depth vectors. -/
def GET_DISTANCE (a b : GFXFormat) : Nat :=
  GFX_DIFF a.comps0 b.comps0 + GFX_DIFF a.comps1 b.comps1 +
  GFX_DIFF a.comps2 b.comps2 + GFX_DIFF a.comps3 b.comps3

/-- An element of the per-device format dictionary
    `{ GFXFormat, VkFormat, VkFormatProperties }`; the Vulkan format
    properties are recorded through `_GFX_GET_FEATURES`, the feature
    bitmask format.c derives from them. -/
structure FormatEntry where
  fmt      : GFXFormat
  features : Nat
deriving DecidableEq, Repr

/-- Modelled from the spec: `GFX_FUZZY_MIN_DEPTH` flag bit of the
    `GFXFuzzyFlags` enum (public formats header, bounds bit depths from
    below). -/
def GFX_FUZZY_MIN_DEPTH : Nat := 1

/-- Modelled from the spec: `GFX_FUZZY_MAX_DEPTH` flag bit of the
    `GFXFuzzyFlags` enum (public formats header, bounds bit depths from
    above). -/
def GFX_FUZZY_MAX_DEPTH : Nat := 2

/-- `UINT_MAX`, the initial best distance in `gfx_format_fuzzy`. -/
def UINT_MAX : Nat := 2 ^ 32 - 1

/-- The rejection filter of the `gfx_format_fuzzy` loop body: matches
    type/order (compressed formats need exact order equality) and the
    minimal features, then the optional MIN_DEPTH/MAX_DEPTH bounds.
    `isCompressed` stands for `GFX_FORMAT_IS_COMPRESSED` (public formats
    header). -/
def fuzzyAccepts (isCompressed : GFXFormat → Bool)
    (fmt : GFXFormat) (flags : Nat) (features : Nat)
    (e : FormatEntry) : Bool :=
  ¬ ((features &&& e.features) ≠ features ∨
     (e.fmt.type &&& fmt.type) ≠ e.fmt.type ∨
     (if isCompressed e.fmt then e.fmt.order ≠ fmt.order
      else (e.fmt.order &&& fmt.order) ≠ e.fmt.order)) ∧
  ¬ ((flags &&& GFX_FUZZY_MIN_DEPTH ≠ 0 ∧
        (e.fmt.comps0 < fmt.comps0 ∨ e.fmt.comps1 < fmt.comps1 ∨
         e.fmt.comps2 < fmt.comps2 ∨ e.fmt.comps3 < fmt.comps3)) ∨
     (flags &&& GFX_FUZZY_MAX_DEPTH ≠ 0 ∧
        (e.fmt.comps0 > fmt.comps0 ∨ e.fmt.comps1 > fmt.comps1 ∨
         e.fmt.comps2 > fmt.comps2 ∨ e.fmt.comps3 > fmt.comps3)))

/-- Loop state of `gfx_format_fuzzy`: the candidate return format, the
    `contained` flag and the best distance so far. -/
structure FuzzyState where
  retFmt    : GFXFormat
  contained : Bool
  dist      : Nat
deriving DecidableEq, Repr

/-- Initial `gfx_format_fuzzy` state. -/
def fuzzyInit : FuzzyState :=
  { retFmt := GFX_FORMAT_EMPTY, contained := false, dist := UINT_MAX }

/-- The 'closest match' update of the `gfx_format_fuzzy` loop body
    (contained formats are always preferred). `isContained` stands for
    `GFX_FORMAT_IS_CONTAINED` (public formats header). -/
def fuzzyUpdate (isContained : GFXFormat → GFXFormat → Bool)
    (fmt : GFXFormat) (st : FuzzyState) (e : FormatEntry) : FuzzyState :=
  let cont := isContained e.fmt fmt
  let d := GET_DISTANCE e.fmt fmt
  if (if st.contained then cont ∧ d < st.dist else (cont ∨ d < st.dist))
  then { retFmt := e.fmt, contained := cont, dist := d }
  else st

/-- The `gfx_format_fuzzy` loop restricted to candidates that already
    passed the filters (helper for stating its properties). -/
def fuzzyLoop (isContained : GFXFormat → GFXFormat → Bool)
    (fmt : GFXFormat) : FuzzyState → List FormatEntry → FuzzyState
  | st, [] => st
  | st, e :: es => fuzzyLoop isContained fmt (fuzzyUpdate isContained fmt st e) es

/-- The `gfx_format_fuzzy` loop over the device's format dictionary:
    entries rejected by the filters are skipped (`continue`), the rest
    feed the closest-match update. -/
def fuzzyLoopFull (isContained : GFXFormat → GFXFormat → Bool)
    (isCompressed : GFXFormat → Bool) (fmt : GFXFormat)
    (flags : Nat) (features : Nat) :
    FuzzyState → List FormatEntry → FuzzyState
  | st, [] => st
  | st, e :: es =>
    let st' := if fuzzyAccepts isCompressed fmt flags features e
               then fuzzyUpdate isContained fmt st e else st
    fuzzyLoopFull isContained isCompressed fmt flags features st' es

/-- `gfx_format_fuzzy`. `isContained`/`isCompressed` stand for the
    public-header predicates `GFX_FORMAT_IS_CONTAINED` and
    `GFX_FORMAT_IS_COMPRESSED`. -/
def gfx_format_fuzzy (isContained : GFXFormat → GFXFormat → Bool)
    (isCompressed : GFXFormat → Bool) (formats : List FormatEntry)
    (fmt : GFXFormat) (flags : Nat) (features : Nat) : GFXFormat :=
  (fuzzyLoopFull isContained isCompressed fmt flags features
    fuzzyInit formats).retFmt

/-! ## Helper lemmas -/

theorem findInsertLoc_le (passes : List Pass) (level : Nat) :
    ∀ n, findInsertLoc passes level n ≤ n := by
  intro n
  induction n with
  | zero => simp [findInsertLoc]
  | succ n ih =>
    rw [findInsertLoc]
    cases h : passes.get? n with
    | none => simp only [h]; exact Nat.le_succ_of_le ih
    | some q =>
      simp only [h]
      split
      · exact Nat.le_refl _
      · exact Nat.le_succ_of_le ih

/-- Unfolding `_gfx_ref_resolve` by one recursion step. -/
theorem resolve_unfold (w : World) (ref : GFXReference) :
    _gfx_ref_resolve w ref =
      match resolveSwitch w ref with
      | .error warns => (GFX_REF_NULL, warns)
      | .ok rec' =>
        if GFX_REF_IS_NULL rec' then (ref, [])
        else resolveFuel w 7 rec' := rfl

/-! ## Claim theorems -/

/-- C9: immediately after `_gfx_render_graph_init` the graph holds no
    passes and its state is BUILT (not EMPTY); `_gfx_render_graph_warmup`
    and `_gfx_render_graph_build` on that fresh graph return success
    at once, leaving the graph untouched and performing no purge, no
    analysis and no per-pass visit (empty event trace). -/
theorem graph_init_built_noop (okW : Pass → Bool) (okB : Pass → Nat → Bool) :
    _gfx_render_graph_init.passes = [] ∧
    _gfx_render_graph_init.state = GraphState.built ∧
    _gfx_render_graph_init.state ≠ GraphState.empty ∧
    _gfx_render_graph_warmup okW _gfx_render_graph_init =
      (_gfx_render_graph_init, true, []) ∧
    _gfx_render_graph_build okB _gfx_render_graph_init =
      (_gfx_render_graph_init, true, []) := by
  refine ⟨rfl, rfl, by decide, ?_, ?_⟩ <;> rfl

/-- A primitive with both its vertices and its indices packed into its
    own buffer (`refVertex` and `refIndex` both null). -/
def c1Primitive : PrimitiveObj :=
  { numVertices := 3, numIndices := 5, stride := 2, flagsVertex := 0
    flagsIndex := 7, refVertex := GFX_REF_NULL, refIndex := GFX_REF_NULL
    buffer := 0 }

/-- The same primitive with a non-null (external) vertex reference. -/
def c1PrimitiveExtVert : PrimitiveObj :=
  { c1Primitive with
    refVertex :=
      { type := .buffer, obj := 1, offset := 0, value0 := 0, value1 := 0 } }

def c1World : World :=
  { buffers := [{ size := 100, flags := 0, context := 0 },
                { size := 100, flags := 0, context := 0 }]
    images := [], primitives := [c1Primitive, c1PrimitiveExtVert]
    groups := [], renderers := [] }

def c1Ref (prim : Nat) : GFXReference :=
  { type := .primitiveIndices, obj := prim, offset := 4
    value0 := 0, value1 := 0 }

/-- C1: the C precedence of `ref.offset + GFX_REF_IS_NULL(..) ? a : 0`
    makes `_gfx_ref_unpack` return `numVertices * stride` instead of
    `offset + numVertices * stride` for a primitive-indices reference
    with a null vertex reference (offset 4, 3 vertices of stride 2:
    the code yields 6, the documented augmented offset is 10), and the
    same value instead of `offset` when the vertex reference is not
    null (the code again yields 6 where the claim demands 4). -/
theorem unpack_packed_indices_value :
    (_gfx_ref_unpack true c1World (c1Ref 0)).fst.value = 3 * 2 ∧
    (_gfx_ref_unpack true c1World (c1Ref 0)).fst.value ≠ 4 + 3 * 2 ∧
    (_gfx_ref_unpack true c1World (c1Ref 1)).fst.value = 3 * 2 ∧
    (_gfx_ref_unpack true c1World (c1Ref 1)).fst.value ≠ 4 := by decide

/-- C4 counterexample: add two passes to a fresh renderer. Before the
    second `gfx_renderer_add_pass` the graph holds one pass, yet the
    state after that call is EMPTY, not INVALID as claimed. -/
theorem add_pass_second_state_not_invalid :
    (gfx_renderer_add_pass _gfx_render_graph_init [] 0).fst.passes.length
      = 1 ∧
    (gfx_renderer_add_pass
        (gfx_renderer_add_pass _gfx_render_graph_init [] 0).fst [] 1).fst.state
      ≠ GraphState.invalid := by decide

/-- C4 amended: after a successful `gfx_renderer_add_pass`, a graph
    whose state was EMPTY keeps state EMPTY; otherwise the state becomes
    INVALID when at least one pass existed before the call and EMPTY
    when none did (in particular a fresh renderer's BUILT state becomes
    EMPTY on its first pass). -/
theorem add_pass_state_update (g : Graph) (parents : List Pass) (uid : Nat) :
    (gfx_renderer_add_pass g parents uid).fst.state =
      if g.state = GraphState.empty then GraphState.empty
      else if 0 < g.passes.length then GraphState.invalid
      else GraphState.empty := by
  have hloc := findInsertLoc_le g.passes
    (_gfx_create_pass parents uid).level g.passes.length
  have hlen : (g.passes.insertIdx
      (findInsertLoc g.passes (_gfx_create_pass parents uid).level
        g.passes.length)
      (_gfx_create_pass parents uid)).length = g.passes.length + 1 :=
    List.length_insertIdx _ _ hloc
  simp only [gfx_renderer_add_pass, hlen]
  split_ifs with h1 h2 h3 h4 <;> simp_all

def c8World : World :=
  { buffers := [{ size := 10, flags := 0, context := 0 }]
    images := [], primitives := [], groups := [], renderers := [] }

def c8Ref : GFXReference :=
  { type := .buffer, obj := 0, offset := 20, value0 := 0, value1 := 0 }

/-- C8 counterexample: a buffer reference whose offset (20) exceeds the
    owning buffer's size (10). In a release (`NDEBUG`) build
    `_gfx_ref_unpack` returns the offset unchanged — the result does not
    satisfy `value < owner.size`, so no clamping takes place. -/
theorem unpack_oob_not_clamped :
    (_gfx_ref_unpack true c8World c8Ref).fst.value = 20 ∧
    ¬ ((_gfx_ref_unpack true c8World c8Ref).fst.value <
        (c8World.buffers.getD 0 defaultBuffer).size) := by decide

/-- C8 amended: for a buffer reference, `_gfx_ref_unpack` always returns
    the reference's byte offset as the unpacked value — out-of-bounds
    offsets are reported through a warning in debug builds and silently
    accepted in release builds; the value is never clamped. -/
theorem unpack_oob_warn_only (ndebug : Bool) (w : World)
    (ref : GFXReference) (h : ref.type = RefType.buffer) :
    (_gfx_ref_unpack ndebug w ref).fst.value = ref.offset ∧
    (_gfx_ref_unpack ndebug w ref).snd =
      (if ndebug then []
       else if ref.offset < (w.buffers.getD ref.obj defaultBuffer).size
       then [] else [RefWarn.unpackBufferOOB]) := by
  obtain ⟨t, o, off, v0, v1⟩ := ref
  subst h
  simp [_gfx_ref_unpack, resolve_unfold, resolveSwitch, GFX_REF_IS_NULL,
    GFX_REF_NULL, checkUnpack]

/-- C8 amended, witnessed at the out-of-bounds debug-build instance:
    the value stays 20 and the warning is logged. -/
theorem unpack_oob_warn_only_witness :
    (_gfx_ref_unpack false c8World c8Ref).fst.value = c8Ref.offset ∧
    (_gfx_ref_unpack false c8World c8Ref).snd =
      (if false then []
       else if c8Ref.offset < (c8World.buffers.getD c8Ref.obj
          defaultBuffer).size
       then [] else [RefWarn.unpackBufferOOB]) :=
  unpack_oob_warn_only false c8World c8Ref rfl

/-- C10: a valid group-buffer reference whose selected binding entry
    references the group's own backing buffer resolves to itself — the
    reference's offset is not folded in by `_gfx_ref_resolve` — and the
    binding's stored offset is added to the byte offset only by
    `_gfx_ref_unpack`. -/
theorem resolve_group_own_buffer (ndebug : Bool) (w : World)
    (ref : GFXReference) (hty : ref.type = RefType.groupBuffer)
    (hb : ref.value0 <
      (w.groups.getD ref.obj defaultGroup).numBindings)
    (hi : ref.value1 <
      ((w.groups.getD ref.obj defaultGroup).bindings.getD ref.value0
        defaultBinding).count)
    (hbt : ((w.groups.getD ref.obj defaultGroup).bindings.getD ref.value0
        defaultBinding).type = BindingType.buffer)
    (hown : (((w.groups.getD ref.obj defaultGroup).bindings.getD ref.value0
        defaultBinding).buffers.getD ref.value1 GFX_REF_NULL).obj =
      (w.groups.getD ref.obj defaultGroup).buffer) :
    (_gfx_ref_resolve w ref).fst = ref ∧
    (_gfx_ref_unpack ndebug w ref).fst.value =
      ref.offset +
      (((w.groups.getD ref.obj defaultGroup).bindings.getD ref.value0
          defaultBinding).buffers.getD ref.value1 GFX_REF_NULL).offset := by
  obtain ⟨t, o, off, v0, v1⟩ := ref
  subst hty
  simp only at hb hi hbt hown
  have hswitch : resolveSwitch w
      ⟨RefType.groupBuffer, o, off, v0, v1⟩ = .ok GFX_REF_NULL := by
    simp only [resolveSwitch]
    rw [if_neg (not_not_intro ⟨hb, hi⟩), if_neg (not_not_intro hbt),
      if_pos hown]
  have hres : _gfx_ref_resolve w ⟨RefType.groupBuffer, o, off, v0, v1⟩ =
      (⟨RefType.groupBuffer, o, off, v0, v1⟩, []) := by
    rw [resolve_unfold, hswitch]
    simp [GFX_REF_IS_NULL, GFX_REF_NULL]
  refine ⟨by rw [hres], ?_⟩
  simp only [_gfx_ref_unpack, hres]

def c10Binding : Binding :=
  { type := .buffer, count := 2
    buffers :=
      [{ type := .buffer, obj := 5, offset := 16, value0 := 0, value1 := 0 },
       { type := .buffer, obj := 3, offset := 32, value0 := 0, value1 := 0 }]
    images := [] }

def c10World : World :=
  { buffers := [defaultBuffer, defaultBuffer, defaultBuffer,
                { size := 1000, flags := 0, context := 0 }]
    images := [], primitives := []
    groups := [{ flags := 0, buffer := 3, numBindings := 1
                 bindings := [c10Binding] }]
    renderers := [] }

def c10Ref : GFXReference :=
  { type := .groupBuffer, obj := 0, offset := 8, value0 := 0, value1 := 1 }

/-- C10, witnessed on a group whose binding entry 1 references the
    group's own backing buffer (arena index 3) at stored offset 32:
    resolve is the identity and unpack yields 8 + 32. -/
theorem resolve_group_own_buffer_witness :
    (_gfx_ref_resolve c10World c10Ref).fst = c10Ref ∧
    (_gfx_ref_unpack true c10World c10Ref).fst.value =
      c10Ref.offset +
      (((c10World.groups.getD c10Ref.obj defaultGroup).bindings.getD
          c10Ref.value0 defaultBinding).buffers.getD c10Ref.value1
        GFX_REF_NULL).offset :=
  resolve_group_own_buffer true c10World c10Ref rfl (by decide) (by decide)
    (by decide) (by decide)

/-- Events that destroy pass resources (`_gfx_pass_destruct` or the
    purge that invokes it). -/
def GraphEvent.isDestructive : GraphEvent → Bool
  | .purge => true
  | .destructPass _ => true
  | _ => false

/-- C6: `_gfx_render_graph_rebuild` is a no-op below WARMED; otherwise
    it invokes the pass build with the given flags on exactly the passes
    whose `build.backing` equals the attachment index, downgrades the
    state to VALIDATED when at least one such build fails (leaving the
    graph untouched otherwise), and never destructs or purges a pass. -/
theorem graph_rebuild_exact (ok : Pass → Nat → Bool) (g : Graph)
    (index flags : Nat) :
    (g.state.toNat < GraphState.warmed.toNat →
      _gfx_render_graph_rebuild ok g index flags = (g, [])) ∧
    (GraphState.warmed.toNat ≤ g.state.toNat →
      (_gfx_render_graph_rebuild ok g index flags).snd =
        (g.passes.filter (fun p => p.backing == index)).map
          (fun p => GraphEvent.buildPass p.uid flags) ++
        (if 0 < (g.passes.filter
            (fun p => p.backing == index && !(ok p flags))).length
         then [GraphEvent.logFailed ((g.passes.filter
            (fun p => p.backing == index && !(ok p flags))).length)]
         else []) ∧
      (0 < (g.passes.filter
          (fun p => p.backing == index && !(ok p flags))).length →
        (_gfx_render_graph_rebuild ok g index flags).fst.state =
          GraphState.validated) ∧
      ((g.passes.filter
          (fun p => p.backing == index && !(ok p flags))).length = 0 →
        (_gfx_render_graph_rebuild ok g index flags).fst = g)) ∧
    (_gfx_render_graph_rebuild ok g index flags).fst.passes = g.passes ∧
    (∀ e ∈ (_gfx_render_graph_rebuild ok g index flags).snd,
      e.isDestructive = false) := by
  refine ⟨?_, ?_, ?_, ?_⟩
  · intro h
    simp [_gfx_render_graph_rebuild, h]
  · intro h
    simp only [_gfx_render_graph_rebuild]
    rw [if_neg (by omega)]
    refine ⟨by split <;> simp_all, ?_, ?_⟩
    · intro hf
      rw [if_pos hf]
    · intro hf
      rw [if_neg (by omega)]
  · simp only [_gfx_render_graph_rebuild]
    split
    · rfl
    · split <;> rfl
  · intro e he
    simp only [_gfx_render_graph_rebuild] at he
    split at he
    · simp at he
    · split at he <;> simp only [List.mem_append, List.mem_map] at he
      · rcases he with (⟨p, _, rfl⟩ | he)
        · rfl
        · simp_all [GraphEvent.isDestructive]
      · rcases he with ⟨p, _, rfl⟩
        rfl

def c6Pass : Pass :=
  { uid := 3, level := 0, order := 0, backing := 1, parents := [] }

def c6Graph : Graph :=
  { sinks := [c6Pass], passes := [c6Pass], state := GraphState.warmed }

/-- C6, witnessed on a warmed one-pass graph whose pass backs
    attachment 1 and whose rebuild fails: the pass is rebuilt with the
    given flags, the failure is logged and the state drops to
    VALIDATED. -/
theorem graph_rebuild_exact_witness :
    (_gfx_render_graph_rebuild (fun _ _ => false) c6Graph 1 4).snd =
      (c6Graph.passes.filter (fun p => p.backing == 1)).map
        (fun p => GraphEvent.buildPass p.uid 4) ++
      (if 0 < (c6Graph.passes.filter
          (fun p => p.backing == 1 && !((fun _ _ => false) p 4))).length
       then [GraphEvent.logFailed ((c6Graph.passes.filter
          (fun p => p.backing == 1 && !((fun _ _ => false) p 4))).length)]
       else []) ∧
    (_gfx_render_graph_rebuild (fun _ _ => false) c6Graph 1 4).fst.state =
      GraphState.validated :=
  ⟨((graph_rebuild_exact (fun _ _ => false) c6Graph 1 4).2.1
      (by decide)).1,
   ((graph_rebuild_exact (fun _ _ => false) c6Graph 1 4).2.1
      (by decide)).2.1 (by decide)⟩

/-- Assigning dense orders does not change which passes are in the
    vector (their identities are untouched). -/
theorem mapIdx_order_map_uid (l : List Pass) :
    (l.mapIdx (fun i p => { p with order := i })).map Pass.uid =
      l.map Pass.uid := by
  rw [List.mapIdx_eq_enum_map, List.map_map]
  have : (Pass.uid ∘ Function.uncurry fun i p => { p with order := i }) =
      (Pass.uid ∘ Prod.snd (α := Nat)) := by
    funext x
    rfl
  rw [this, ← List.map_map, List.enum_map_snd]

def c5Pass : Pass :=
  { uid := 0, level := 0, order := 0, backing := 0, parents := [] }

def c5Graph : Graph :=
  { sinks := [c5Pass], passes := [c5Pass], state := GraphState.warmed }

/-- C5 counterexample: building a warmed one-pass graph whose pass
    fails to build returns failure but leaves the state WARMED — not
    VALIDATED as claimed. -/
theorem graph_build_fail_warmed_state :
    c5Graph.passes.length = 1 ∧
    (_gfx_render_graph_build (fun _ _ => false) c5Graph).snd.fst = false ∧
    (_gfx_render_graph_build (fun _ _ => false) c5Graph).fst.state =
      GraphState.warmed ∧
    GraphState.warmed ≠ GraphState.validated := by decide

/-- Unfolding `_gfx_render_graph_build` for any entry state below
    BUILT: the INVALID entry purges, entries below VALIDATED analyze,
    then all passes are built and ordered. -/
theorem build_unfold (ok : Pass → Nat → Bool) (sk ps : List Pass)
    (st : GraphState) (h : st ≠ GraphState.built) :
    _gfx_render_graph_build ok ⟨sk, ps, st⟩ =
      (if 0 < (ps.filter (fun p => !(ok p 0))).length then
        (⟨sk, ps.mapIdx (fun i p => { p with order := i }),
           if st = GraphState.warmed then GraphState.warmed
           else GraphState.validated⟩, false,
         ((if st = GraphState.invalid then
             GraphEvent.purge ::
               ps.map (fun p => GraphEvent.destructPass p.uid)
           else []) ++
          (if st = GraphState.empty ∨ st = GraphState.invalid then
             [GraphEvent.analyze] else []) ++
          ps.map (fun p => GraphEvent.buildPass p.uid 0)) ++
         [GraphEvent.logFailed ((ps.filter (fun p => !(ok p 0))).length)])
      else
        (⟨sk, ps.mapIdx (fun i p => { p with order := i }),
           GraphState.built⟩, true,
         (if st = GraphState.invalid then
            GraphEvent.purge ::
              ps.map (fun p => GraphEvent.destructPass p.uid)
          else []) ++
         (if st = GraphState.empty ∨ st = GraphState.invalid then
            [GraphEvent.analyze] else []) ++
         ps.map (fun p => GraphEvent.buildPass p.uid 0))) := by
  cases st <;> first | exact absurd rfl h | rfl

/-- C5 amended: for any entry state other than BUILT,
    `_gfx_render_graph_build` succeeds iff every pass in the pass vector
    builds; when at least one pass fails, the failure count is logged,
    the state never becomes BUILT (it is VALIDATED for entry states
    below WARMED and stays WARMED for a warmed graph), the pass vector
    keeps exactly its passes, and no destruction happens beyond the
    entry purge of an INVALID graph. -/
theorem graph_build_success_iff (ok : Pass → Nat → Bool) (g : Graph)
    (h : g.state ≠ GraphState.built) :
    ((_gfx_render_graph_build ok g).snd.fst = true ↔
      g.passes.all (fun p => ok p 0) = true) ∧
    (0 < (g.passes.filter (fun p => !(ok p 0))).length →
      (_gfx_render_graph_build ok g).fst.state =
        (if GraphState.validated.toNat ≤ g.state.toNat then g.state
         else GraphState.validated) ∧
      (_gfx_render_graph_build ok g).fst.state ≠ GraphState.built ∧
      GraphEvent.logFailed ((g.passes.filter (fun p => !(ok p 0))).length)
        ∈ (_gfx_render_graph_build ok g).snd.snd) ∧
    (_gfx_render_graph_build ok g).fst.passes.map Pass.uid =
      g.passes.map Pass.uid ∧
    (g.state ≠ GraphState.invalid →
      ∀ e ∈ (_gfx_render_graph_build ok g).snd.snd,
        e.isDestructive = false) := by
  obtain ⟨sk, ps, st⟩ := g
  simp only at h ⊢
  have hall : ((ps.all fun p => ok p 0) = true) ↔
      (ps.filter (fun p => !(ok p 0))).length = 0 := by
    rw [List.length_eq_zero, List.filter_eq_nil_iff, List.all_eq_true]
    constructor
    · intro hp a ha
      simp [hp a ha]
    · intro hp a ha
      have := hp a ha
      simpa using this
  rw [build_unfold ok sk ps st h]
  by_cases hf : 0 < (ps.filter (fun p => !(ok p 0))).length
  · rw [if_pos hf]
    refine ⟨?_, fun _ => ⟨?_, ?_, ?_⟩, ?_, ?_⟩
    · constructor
      · intro hx
        exact absurd hx (by simp)
      · intro hx
        rw [hall] at hx
        omega
    · cases st <;> first | exact absurd rfl h | simp [GraphState.toNat]
    · cases st <;> simp
    · simp
    · exact mapIdx_order_map_uid ps
    · intro hni e he
      rw [if_neg hni] at he
      simp only [List.nil_append, List.mem_append, List.mem_singleton,
        List.mem_map] at he
      rcases he with (hb | ⟨p, _, rfl⟩) | rfl
      · split at hb <;>
          simp only [List.mem_singleton, List.not_mem_nil] at hb
        subst hb
        rfl
      · rfl
      · rfl
  · rw [if_neg hf]
    refine ⟨?_, fun hf2 => absurd hf2 hf, ?_, ?_⟩
    · constructor
      · intro _
        rw [hall]
        omega
      · intro _
        rfl
    · exact mapIdx_order_map_uid ps
    · intro hni e he
      rw [if_neg hni] at he
      simp only [List.nil_append, List.mem_append, List.mem_singleton,
        List.mem_map] at he
      rcases he with hb | ⟨p, _, rfl⟩
      · split at hb <;>
          simp only [List.mem_singleton, List.not_mem_nil] at hb
        subst hb
        rfl
      · rfl

/-- C5 amended, witnessed on the warmed one-pass graph with a failing
    pass build. -/
theorem graph_build_success_iff_witness :
    ((_gfx_render_graph_build (fun _ _ => false) c5Graph).snd.fst = true ↔
      c5Graph.passes.all (fun p => (fun _ _ => false) p 0) = true) ∧
    (0 < (c5Graph.passes.filter
        (fun p => !((fun _ _ => false) p 0))).length →
      (_gfx_render_graph_build (fun _ _ => false) c5Graph).fst.state =
        (if GraphState.validated.toNat ≤ c5Graph.state.toNat
         then c5Graph.state else GraphState.validated) ∧
      (_gfx_render_graph_build (fun _ _ => false) c5Graph).fst.state ≠
        GraphState.built ∧
      GraphEvent.logFailed ((c5Graph.passes.filter
          (fun p => !((fun _ _ => false) p 0))).length)
        ∈ (_gfx_render_graph_build (fun _ _ => false) c5Graph).snd.snd) ∧
    (_gfx_render_graph_build (fun _ _ => false) c5Graph).fst.passes.map
        Pass.uid = c5Graph.passes.map Pass.uid ∧
    (c5Graph.state ≠ GraphState.invalid →
      ∀ e ∈ (_gfx_render_graph_build (fun _ _ => false) c5Graph).snd.snd,
        e.isDestructive = false) :=
  graph_build_success_iff (fun _ _ => false) c5Graph (by decide)

/-- The sink-removal loop erases exactly the parents among the first
    `t` sinks, leaving everything from position `t` on untouched. -/
theorem removeSinksLoop_spec (parents : List Pass) :
    ∀ (t : Nat) (s : List Pass), t ≤ s.length →
      removeSinksLoop parents s t =
        (s.take t).filter (fun p => !(decide (p ∈ parents))) ++ s.drop t := by
  intro t
  induction t with
  | zero => intro s _; simp [removeSinksLoop]
  | succ t ih =>
    intro s hts
    have htlt : t < s.length := Nat.lt_of_succ_le hts
    have hget : s.get? t = some s[t] := by
      rw [List.get?_eq_getElem?]
      exact List.getElem?_eq_getElem htlt
    have htake : s.take (t + 1) = s.take t ++ [s[t]] := by
      rw [List.take_succ]
      simp [List.getElem?_eq_getElem htlt]
    have herase : s.eraseIdx t = s.take t ++ s.drop (t + 1) :=
      List.eraseIdx_eq_take_drop_succ s t
    have hlt : (s.take t).length = t := List.length_take_of_le (le_of_lt htlt)
    have hdrop : s.drop t = s[t] :: s.drop (t + 1) :=
      List.drop_eq_getElem_cons htlt
    simp only [removeSinksLoop, hget]
    by_cases hmem : s[t] ∈ parents
    · rw [if_pos hmem]
      have hlen : t ≤ (s.eraseIdx t).length := by
        rw [herase]
        simp only [List.length_append, List.length_take, List.length_drop]
        omega
      have hdiscard : List.filter (fun p => !(decide (p ∈ parents)))
          [s[t]] = [] := by simp [hmem]
      rw [ih _ hlen, herase, List.take_left' hlt, List.drop_left' hlt,
        htake, List.filter_append, hdiscard, List.append_nil]
    · rw [if_neg hmem]
      have hkeep : List.filter (fun p => !(decide (p ∈ parents)))
          [s[t]] = [s[t]] := by simp [hmem]
      rw [ih _ (le_of_lt htlt), htake, List.filter_append, hkeep, hdrop,
        List.append_assoc, List.singleton_append]

/-- C2's sink-closure invariant: the sink vector holds exactly the
    passes of the pass vector that no pass lists as a parent. -/
def SinkInv (g : Graph) : Prop :=
  (∀ p ∈ g.sinks, p ∈ g.passes ∧ ∀ q ∈ g.passes, p.uid ∉ q.parents) ∧
  (∀ p ∈ g.passes, (∀ q ∈ g.passes, p.uid ∉ q.parents) → p ∈ g.sinks)

/-- Membership in the pass vector after `gfx_renderer_add_pass`. -/
theorem add_pass_mem_passes (g : Graph) (parents : List Pass) (uid : Nat)
    (p : Pass) :
    p ∈ (gfx_renderer_add_pass g parents uid).fst.passes ↔
      p = _gfx_create_pass parents uid ∨ p ∈ g.passes := by
  simp only [gfx_renderer_add_pass]
  exact List.mem_insertIdx (findInsertLoc_le g.passes
    (_gfx_create_pass parents uid).level g.passes.length)

/-- The sink vector after `gfx_renderer_add_pass`: parents of the new
    pass are erased, the new pass is appended. -/
theorem add_pass_sinks_eq (g : Graph) (parents : List Pass) (uid : Nat) :
    (gfx_renderer_add_pass g parents uid).fst.sinks =
      g.sinks.filter (fun p => !(decide (p ∈ parents))) ++
        [(gfx_renderer_add_pass g parents uid).snd] := by
  simp only [gfx_renderer_add_pass]
  have hlen : (g.sinks ++ [_gfx_create_pass parents uid]).length - 1 =
      g.sinks.length := by simp
  rw [hlen, removeSinksLoop_spec parents g.sinks.length
      (g.sinks ++ [_gfx_create_pass parents uid]) (by simp),
    List.take_left, List.drop_left]

/-- C2: after every successful `gfx_renderer_add_pass`, the sink vector
    contains exactly the passes that no pass in the pass vector lists as
    a parent — the new pass is appended to the sink vector and every
    parent of the new pass that was a sink is removed from it. -/
theorem add_pass_sink_closure (g : Graph) (parents : List Pass)
    (uid : Nat)
    (hInv : SinkInv g)
    (hpar : ∀ p ∈ parents, p ∈ g.passes)
    (hfresh : ∀ q ∈ g.passes, q.uid ≠ uid)
    (hfreshp : ∀ q ∈ g.passes, uid ∉ q.parents)
    (hinj : ∀ p ∈ g.passes, ∀ q ∈ g.passes, p.uid = q.uid → p = q) :
    (gfx_renderer_add_pass g parents uid).fst.sinks =
      g.sinks.filter (fun p => !(decide (p ∈ parents))) ++
        [(gfx_renderer_add_pass g parents uid).snd] ∧
    SinkInv (gfx_renderer_add_pass g parents uid).fst := by
  refine ⟨add_pass_sinks_eq g parents uid, ?_, ?_⟩
  · intro p hp
    rw [add_pass_sinks_eq] at hp
    simp only [List.mem_append, List.mem_filter, List.mem_singleton,
      Bool.not_eq_true', decide_eq_false_iff_not] at hp
    rcases hp with ⟨hps, hnp⟩ | rfl
    · obtain ⟨hp1, hp2⟩ := hInv.1 p hps
      refine ⟨(add_pass_mem_passes g parents uid p).mpr (Or.inr hp1), ?_⟩
      intro q hq
      rcases (add_pass_mem_passes g parents uid q).mp hq with rfl | hq'
      · intro hmem
        simp only [_gfx_create_pass, List.mem_map] at hmem
        obtain ⟨par, hparmem, hpu⟩ := hmem
        exact hnp (hinj par (hpar par hparmem) p hp1 hpu ▸ hparmem)
      · exact hp2 q hq'
    · refine ⟨(add_pass_mem_passes g parents uid _).mpr (Or.inl rfl), ?_⟩
      intro q hq
      rcases (add_pass_mem_passes g parents uid q).mp hq with rfl | hq'
      · intro hmem
        simp only [_gfx_create_pass, List.mem_map] at hmem
        obtain ⟨par, hparmem, hpu⟩ := hmem
        exact hfresh par (hpar par hparmem) hpu
      · exact fun hmem => hfreshp q hq' hmem
  · intro p hp hall
    rw [add_pass_sinks_eq]
    simp only [List.mem_append, List.mem_filter, List.mem_singleton,
      Bool.not_eq_true', decide_eq_false_iff_not]
    rcases (add_pass_mem_passes g parents uid p).mp hp with rfl | hp'
    · exact Or.inr rfl
    · refine Or.inl ⟨?_, ?_⟩
      · exact hInv.2 p hp' fun q hq =>
          hall q ((add_pass_mem_passes g parents uid q).mpr (Or.inr hq))
      · intro hmem
        have hnew := hall (_gfx_create_pass parents uid)
          ((add_pass_mem_passes g parents uid _).mpr (Or.inl rfl))
        exact hnew (by
          simp only [_gfx_create_pass, List.mem_map]
          exact ⟨p, hmem, rfl⟩)

def c2PassA : Pass :=
  { uid := 0, level := 0, order := 0, backing := 0, parents := [] }

def c2Graph : Graph :=
  { sinks := [c2PassA], passes := [c2PassA], state := GraphState.empty }

/-- C2, witnessed on a one-pass graph when adding a child of that pass:
    the parent leaves the sink vector, the child enters it, and the
    closure invariant holds afterwards. -/
theorem add_pass_sink_closure_witness :
    (gfx_renderer_add_pass c2Graph [c2PassA] 1).fst.sinks =
      c2Graph.sinks.filter (fun p => !(decide (p ∈ [c2PassA]))) ++
        [(gfx_renderer_add_pass c2Graph [c2PassA] 1).snd] ∧
    SinkInv (gfx_renderer_add_pass c2Graph [c2PassA] 1).fst :=
  add_pass_sink_closure c2Graph [c2PassA] 1 ⟨by decide, by decide⟩
    (by decide) (by decide) (by decide) (by decide)

theorem le_foldr_max (a : Nat) (l : List Nat) (h : a ∈ l) :
    a ≤ l.foldr Nat.max 0 := by
  induction l with
  | nil => cases h
  | cons b t ih =>
    rcases List.mem_cons.mp h with rfl | ht
    · exact Nat.le_max_left _ _
    · exact le_trans (ih ht) (Nat.le_max_right _ _)

/-- Every parent is strictly below the created pass's level
    (`level = 1 + max(parent.level)`). -/
theorem create_pass_parent_level (parents : List Pass) (uid : Nat) :
    ∀ par ∈ parents, par.level < (_gfx_create_pass parents uid).level := by
  intro par hpar
  simp only [_gfx_create_pass]
  rw [if_neg (List.ne_nil_of_mem hpar)]
  have := le_foldr_max par.level (parents.map Pass.level)
    (List.mem_map_of_mem Pass.level hpar)
  omega

/-- One backwards step of the insertion-position search. -/
theorem findInsertLoc_succ_of_get (passes : List Pass) (lvl n : Nat)
    (q : Pass) (h : passes.get? n = some q) :
    findInsertLoc passes lvl (n + 1) =
      if q.level ≤ lvl then n + 1 else findInsertLoc passes lvl n := by
  rw [findInsertLoc, h]

/-- Every pass at or right of the found insertion position has a level
    strictly above the new pass's level. -/
theorem findInsertLoc_right_gt (passes : List Pass) (lvl : Nat) :
    ∀ (n : Nat), n ≤ passes.length →
      ∀ (i : Nat) (hi : i < passes.length),
        findInsertLoc passes lvl n ≤ i → i < n → lvl < (passes[i]).level := by
  intro n
  induction n with
  | zero =>
    intro _ i _ _ h
    omega
  | succ n ih =>
    intro hn i hi hloc hin
    have hnlt : n < passes.length := Nat.lt_of_succ_le hn
    have hget : passes.get? n = some passes[n] := by
      rw [List.get?_eq_getElem?]
      exact List.getElem?_eq_getElem hnlt
    rw [findInsertLoc_succ_of_get passes lvl n passes[n] hget] at hloc
    by_cases hq : (passes[n]).level ≤ lvl
    · rw [if_pos hq] at hloc
      omega
    · rw [if_neg hq] at hloc
      by_cases hin2 : i < n
      · exact ih (le_of_lt hnlt) i hi hloc hin2
      · have : i = n := by omega
        subst this
        omega

/-- The pass just left of the found insertion position (when any) has a
    level at most the new pass's level: the position is the rightmost
    one among passes of equal or lower level. -/
theorem findInsertLoc_left_le (passes : List Pass) (lvl : Nat) :
    ∀ (n : Nat), n ≤ passes.length →
      findInsertLoc passes lvl n = 0 ∨
      ∃ q, passes.get? (findInsertLoc passes lvl n - 1) = some q ∧
        q.level ≤ lvl := by
  intro n
  induction n with
  | zero =>
    intro _
    exact Or.inl rfl
  | succ n ih =>
    intro hn
    have hnlt : n < passes.length := Nat.lt_of_succ_le hn
    have hget : passes.get? n = some passes[n] := by
      rw [List.get?_eq_getElem?]
      exact List.getElem?_eq_getElem hnlt
    rw [findInsertLoc_succ_of_get passes lvl n passes[n] hget]
    by_cases hq : (passes[n]).level ≤ lvl
    · rw [if_pos hq]
      exact Or.inr ⟨passes[n], by simp only [Nat.add_sub_cancel]; exact hget, hq⟩
    · rw [if_neg hq]
      exact ih (le_of_lt hnlt)

theorem insertIdx_eq_take_cons_drop {α : Type} (a : α) :
    ∀ (n : Nat) (l : List α), n ≤ l.length →
      l.insertIdx n a = l.take n ++ a :: l.drop n := by
  intro n
  induction n with
  | zero =>
    intro l _
    simp
  | succ n ih =>
    intro l hl
    cases l with
    | nil => simp at hl
    | cons b t =>
      simp only [List.insertIdx_succ_cons, List.take_succ_cons,
        List.drop_succ_cons, List.cons_append, List.cons.injEq, true_and]
      exact ih t (by simpa using hl)

/-- Inserting a pass between the lower-or-equal levels on the left and
    the strictly higher levels on the right keeps the vector sorted. -/
theorem pairwise_insertIdx_level (passes : List Pass) (np : Pass)
    (loc : Nat) (hle : loc ≤ passes.length)
    (hsort : List.Pairwise (fun a b => a.level ≤ b.level) passes)
    (hleft : ∀ (i : Nat) (hi : i < passes.length), i < loc →
      (passes[i]).level ≤ np.level)
    (hright : ∀ (i : Nat) (hi : i < passes.length), loc ≤ i →
      np.level < (passes[i]).level) :
    List.Pairwise (fun a b => a.level ≤ b.level)
      (passes.insertIdx loc np) := by
  rw [insertIdx_eq_take_cons_drop np loc passes hle]
  rw [← List.take_append_drop loc passes, List.pairwise_append] at hsort
  obtain ⟨ht, hd, hcross⟩ := hsort
  have htakelen : (passes.take loc).length = loc :=
    List.length_take_of_le hle
  have hmemtake : ∀ a ∈ passes.take loc, a.level ≤ np.level := by
    intro a ha
    obtain ⟨i, hi, rfl⟩ := List.mem_iff_getElem.mp ha
    rw [List.getElem_take]
    exact hleft i (lt_of_lt_of_le (htakelen ▸ hi) hle) (htakelen ▸ hi)
  have hmemdrop : ∀ b ∈ passes.drop loc, np.level < b.level := by
    intro b hb
    obtain ⟨k, hk, rfl⟩ := List.mem_iff_getElem.mp hb
    rw [List.getElem_drop]
    have hk' : loc + k < passes.length := by
      have := List.length_drop loc passes ▸ hk
      omega
    exact hright (loc + k) hk' (Nat.le_add_right loc k)
  rw [List.pairwise_append]
  refine ⟨ht, List.pairwise_cons.mpr ⟨fun b hb => le_of_lt (hmemdrop b hb),
    hd⟩, ?_⟩
  intro a ha b hb
  rcases List.mem_cons.mp hb with rfl | hb'
  · exact hmemtake a ha
  · exact hcross a ha b hb'

/-- Sortedness by level, parent levels strictly below, and uid
    injectivity force the topological-index property. -/
theorem topo_index_of_sorted (passes : List Pass)
    (hsort : List.Pairwise (fun a b => a.level ≤ b.level) passes)
    (hwit : ∀ p ∈ passes, ∀ u ∈ p.parents,
      ∃ q ∈ passes, q.uid = u ∧ q.level < p.level)
    (hinj : ∀ p ∈ passes, ∀ q ∈ passes, p.uid = q.uid → p = q) :
    ∀ (i j : Nat) (hi : i < passes.length) (hj : j < passes.length),
      (passes[i]).uid ∈ (passes[j]).parents →
      i < j ∧ (passes[i]).level < (passes[j]).level := by
  intro i j hi hj hmem
  obtain ⟨q, hqmem, hquid, hqlvl⟩ :=
    hwit passes[j] (List.getElem_mem hj) (passes[i]).uid hmem
  have hq : q = passes[i] :=
    hinj q hqmem passes[i] (List.getElem_mem hi) hquid
  subst hq
  refine ⟨?_, hqlvl⟩
  by_contra hij
  have hsorted := List.pairwise_iff_getElem.mp hsort
  rcases Nat.lt_or_ge j i with hji | hji
  · have := hsorted j i hj hi hji
    omega
  · have : j = i := by omega
    subst this
    omega

/-- C3: `gfx_renderer_add_pass` preserves the topological invariants
    (levels sorted along the pass vector, every parent present with a
    strictly smaller level, uids injective), hence afterwards every
    parent occupies a strictly smaller index and has a strictly smaller
    level than its child; the insertion position is the rightmost one
    among passes of equal or lower level (everything at or right of it
    has a strictly greater level, and its left neighbour, when present,
    has level at most the new pass's). -/
theorem add_pass_topological (g : Graph) (parents : List Pass) (uid : Nat)
    (hsort : List.Pairwise (fun a b => a.level ≤ b.level) g.passes)
    (hwit : ∀ p ∈ g.passes, ∀ u ∈ p.parents,
      ∃ q ∈ g.passes, q.uid = u ∧ q.level < p.level)
    (hinj : ∀ p ∈ g.passes, ∀ q ∈ g.passes, p.uid = q.uid → p = q)
    (hpar : ∀ p ∈ parents, p ∈ g.passes)
    (hfresh : ∀ q ∈ g.passes, q.uid ≠ uid) :
    List.Pairwise (fun a b => a.level ≤ b.level)
      (gfx_renderer_add_pass g parents uid).fst.passes ∧
    (∀ p ∈ (gfx_renderer_add_pass g parents uid).fst.passes,
      ∀ u ∈ p.parents,
        ∃ q ∈ (gfx_renderer_add_pass g parents uid).fst.passes,
          q.uid = u ∧ q.level < p.level) ∧
    (∀ p ∈ (gfx_renderer_add_pass g parents uid).fst.passes,
      ∀ q ∈ (gfx_renderer_add_pass g parents uid).fst.passes,
        p.uid = q.uid → p = q) ∧
    (∀ (i j : Nat)
      (hi : i < (gfx_renderer_add_pass g parents uid).fst.passes.length)
      (hj : j < (gfx_renderer_add_pass g parents uid).fst.passes.length),
      ((gfx_renderer_add_pass g parents uid).fst.passes[i]).uid ∈
        ((gfx_renderer_add_pass g parents uid).fst.passes[j]).parents →
      i < j ∧
      ((gfx_renderer_add_pass g parents uid).fst.passes[i]).level <
        ((gfx_renderer_add_pass g parents uid).fst.passes[j]).level) ∧
    (gfx_renderer_add_pass g parents uid).fst.passes =
      g.passes.insertIdx
        (findInsertLoc g.passes (_gfx_create_pass parents uid).level
          g.passes.length) (_gfx_create_pass parents uid) ∧
    (∀ (i : Nat) (hi : i < g.passes.length),
      findInsertLoc g.passes (_gfx_create_pass parents uid).level
          g.passes.length ≤ i →
      (_gfx_create_pass parents uid).level < (g.passes[i]).level) ∧
    (findInsertLoc g.passes (_gfx_create_pass parents uid).level
        g.passes.length = 0 ∨
      ∃ q, g.passes.get? (findInsertLoc g.passes
          (_gfx_create_pass parents uid).level g.passes.length - 1) =
            some q ∧
        q.level ≤ (_gfx_create_pass parents uid).level) := by
  have hlocle := findInsertLoc_le g.passes
    (_gfx_create_pass parents uid).level g.passes.length
  have hright : ∀ (i : Nat) (hi : i < g.passes.length),
      findInsertLoc g.passes (_gfx_create_pass parents uid).level
        g.passes.length ≤ i →
      (_gfx_create_pass parents uid).level < (g.passes[i]).level :=
    fun i hi hle => findInsertLoc_right_gt g.passes
      (_gfx_create_pass parents uid).level g.passes.length (le_refl _)
      i hi hle hi
  have hleftq := findInsertLoc_left_le g.passes
    (_gfx_create_pass parents uid).level g.passes.length (le_refl _)
  have hmemP : ∀ p : Pass,
      p ∈ (gfx_renderer_add_pass g parents uid).fst.passes ↔
        p = _gfx_create_pass parents uid ∨ p ∈ g.passes :=
    add_pass_mem_passes g parents uid
  have hleft : ∀ (i : Nat) (hi : i < g.passes.length),
      i < findInsertLoc g.passes (_gfx_create_pass parents uid).level
        g.passes.length →
      (g.passes[i]).level ≤ (_gfx_create_pass parents uid).level := by
    intro i hi hiloc
    rcases hleftq with h0 | ⟨q, hq, hqle⟩
    · omega
    · have hloc1 : findInsertLoc g.passes
          (_gfx_create_pass parents uid).level g.passes.length - 1 <
          g.passes.length := by omega
      have hqeq : q = g.passes[findInsertLoc g.passes
          (_gfx_create_pass parents uid).level g.passes.length - 1] := by
        rw [List.get?_eq_getElem?, List.getElem?_eq_getElem hloc1] at hq
        exact (Option.some_injective _ hq).symm
      subst hqeq
      by_cases hieq : i = findInsertLoc g.passes
          (_gfx_create_pass parents uid).level g.passes.length - 1
      · subst hieq
        exact hqle
      · have hilt : i < findInsertLoc g.passes
            (_gfx_create_pass parents uid).level g.passes.length - 1 := by
          omega
        exact le_trans
          (List.pairwise_iff_getElem.mp hsort i _ hi hloc1 hilt) hqle
  have hsort' : List.Pairwise (fun a b => a.level ≤ b.level)
      (gfx_renderer_add_pass g parents uid).fst.passes :=
    pairwise_insertIdx_level g.passes (_gfx_create_pass parents uid) _
      hlocle hsort hleft hright
  have hwit' : ∀ p ∈ (gfx_renderer_add_pass g parents uid).fst.passes,
      ∀ u ∈ p.parents,
        ∃ q ∈ (gfx_renderer_add_pass g parents uid).fst.passes,
          q.uid = u ∧ q.level < p.level := by
    intro p hp u hu
    rcases (hmemP p).mp hp with rfl | hp'
    · simp only [_gfx_create_pass, List.mem_map] at hu
      obtain ⟨par, hparm, rfl⟩ := hu
      exact ⟨par, (hmemP par).mpr (Or.inr (hpar par hparm)), rfl,
        create_pass_parent_level parents uid par hparm⟩
    · obtain ⟨q, hq, hqu, hql⟩ := hwit p hp' u hu
      exact ⟨q, (hmemP q).mpr (Or.inr hq), hqu, hql⟩
  have hinj' : ∀ p ∈ (gfx_renderer_add_pass g parents uid).fst.passes,
      ∀ q ∈ (gfx_renderer_add_pass g parents uid).fst.passes,
        p.uid = q.uid → p = q := by
    intro p hp q hq hpq
    rcases (hmemP p).mp hp with rfl | hp' <;>
      rcases (hmemP q).mp hq with rfl | hq'
    · rfl
    · exact absurd hpq.symm (hfresh q hq')
    · exact absurd hpq (hfresh p hp')
    · exact hinj p hp' q hq' hpq
  exact ⟨hsort', hwit', hinj',
    topo_index_of_sorted _ hsort' hwit' hinj', rfl, hright, hleftq⟩

def c3PassA : Pass :=
  { uid := 0, level := 0, order := 0, backing := 0, parents := [] }

def c3Graph : Graph :=
  { sinks := [c3PassA], passes := [c3PassA], state := GraphState.empty }

/-- C3, witnessed on a one-pass graph when adding a child of that pass:
    the topological invariants and the insertion-position
    characterization hold after the call. -/
theorem add_pass_topological_witness :
    List.Pairwise (fun a b => a.level ≤ b.level)
      (gfx_renderer_add_pass c3Graph [c3PassA] 1).fst.passes ∧
    (∀ p ∈ (gfx_renderer_add_pass c3Graph [c3PassA] 1).fst.passes,
      ∀ u ∈ p.parents,
        ∃ q ∈ (gfx_renderer_add_pass c3Graph [c3PassA] 1).fst.passes,
          q.uid = u ∧ q.level < p.level) ∧
    (∀ p ∈ (gfx_renderer_add_pass c3Graph [c3PassA] 1).fst.passes,
      ∀ q ∈ (gfx_renderer_add_pass c3Graph [c3PassA] 1).fst.passes,
        p.uid = q.uid → p = q) ∧
    (∀ (i j : Nat)
      (hi : i < (gfx_renderer_add_pass c3Graph [c3PassA] 1).fst.passes.length)
      (hj : j < (gfx_renderer_add_pass c3Graph [c3PassA] 1).fst.passes.length),
      ((gfx_renderer_add_pass c3Graph [c3PassA] 1).fst.passes[i]).uid ∈
        ((gfx_renderer_add_pass c3Graph [c3PassA] 1).fst.passes[j]).parents →
      i < j ∧
      ((gfx_renderer_add_pass c3Graph [c3PassA] 1).fst.passes[i]).level <
        ((gfx_renderer_add_pass c3Graph [c3PassA] 1).fst.passes[j]).level) ∧
    (gfx_renderer_add_pass c3Graph [c3PassA] 1).fst.passes =
      c3Graph.passes.insertIdx
        (findInsertLoc c3Graph.passes
          (_gfx_create_pass [c3PassA] 1).level c3Graph.passes.length)
        (_gfx_create_pass [c3PassA] 1) ∧
    (∀ (i : Nat) (hi : i < c3Graph.passes.length),
      findInsertLoc c3Graph.passes (_gfx_create_pass [c3PassA] 1).level
          c3Graph.passes.length ≤ i →
      (_gfx_create_pass [c3PassA] 1).level < (c3Graph.passes[i]).level) ∧
    (findInsertLoc c3Graph.passes (_gfx_create_pass [c3PassA] 1).level
        c3Graph.passes.length = 0 ∨
      ∃ q, c3Graph.passes.get? (findInsertLoc c3Graph.passes
          (_gfx_create_pass [c3PassA] 1).level c3Graph.passes.length - 1) =
            some q ∧
        q.level ≤ (_gfx_create_pass [c3PassA] 1).level) :=
  add_pass_topological c3Graph [c3PassA] 1 (by decide) (by decide)
    (by decide) (by decide) (by decide)

/-! ## Properties of the fuzzy format search -/

theorem fuzzyLoopFull_eq_filter (isContained : GFXFormat → GFXFormat → Bool)
    (isCompressed : GFXFormat → Bool) (fmt : GFXFormat)
    (flags features : Nat) :
    ∀ (l : List FormatEntry) (st : FuzzyState),
      fuzzyLoopFull isContained isCompressed fmt flags features st l =
        fuzzyLoop isContained fmt st
          (l.filter (fuzzyAccepts isCompressed fmt flags features)) := by
  intro l
  induction l with
  | nil =>
    intro st
    rfl
  | cons e es ih =>
    intro st
    rw [List.filter_cons]
    simp only [fuzzyLoopFull]
    by_cases h : fuzzyAccepts isCompressed fmt flags features e
    · rw [if_pos h, if_pos h, fuzzyLoop, ih]
    · rw [if_neg h, if_neg h, ih]

theorem fuzzyUpdate_contained (isContained : GFXFormat → GFXFormat → Bool)
    (fmt : GFXFormat) (st : FuzzyState) (e : FormatEntry) :
    (fuzzyUpdate isContained fmt st e).contained =
      (st.contained || isContained e.fmt fmt) := by
  simp only [fuzzyUpdate]
  cases hst : st.contained <;> cases hcont : isContained e.fmt fmt <;>
    simp [hst, hcont] <;> split <;> simp_all

/-- The update either keeps the state or switches to the candidate. -/
theorem fuzzyUpdate_cases (isContained : GFXFormat → GFXFormat → Bool)
    (fmt : GFXFormat) (st : FuzzyState) (e : FormatEntry) :
    fuzzyUpdate isContained fmt st e = st ∨
      fuzzyUpdate isContained fmt st e =
        ⟨e.fmt, isContained e.fmt fmt, GET_DISTANCE e.fmt fmt⟩ := by
  simp only [fuzzyUpdate]
  split <;> split <;> first | exact Or.inr rfl | exact Or.inl rfl

/-- After the loop, `contained` records whether any candidate so far
    (or the incoming state) is containing. -/
theorem fuzzyLoop_contained (isContained : GFXFormat → GFXFormat → Bool)
    (fmt : GFXFormat) :
    ∀ (l : List FormatEntry) (st : FuzzyState),
      (fuzzyLoop isContained fmt st l).contained =
        (st.contained || l.any (fun e => isContained e.fmt fmt)) := by
  intro l
  induction l with
  | nil =>
    intro st
    simp [fuzzyLoop]
  | cons e es ih =>
    intro st
    rw [fuzzyLoop, ih]
    simp [fuzzyUpdate_contained, Bool.or_assoc]

/-- The loop result is the incoming state or one of the candidates. -/
theorem fuzzyLoop_mem (isContained : GFXFormat → GFXFormat → Bool)
    (fmt : GFXFormat) :
    ∀ (l : List FormatEntry) (st : FuzzyState),
      fuzzyLoop isContained fmt st l = st ∨
      ∃ e ∈ l, fuzzyLoop isContained fmt st l =
        ⟨e.fmt, isContained e.fmt fmt, GET_DISTANCE e.fmt fmt⟩ := by
  intro l
  induction l with
  | nil =>
    intro st
    exact Or.inl rfl
  | cons e es ih =>
    intro st
    rw [fuzzyLoop]
    rcases ih (fuzzyUpdate isContained fmt st e) with h | ⟨e', he', h⟩
    · rw [h]
      rcases fuzzyUpdate_cases isContained fmt st e with h2 | h2
      · exact Or.inl h2
      · exact Or.inr ⟨e, List.mem_cons_self e es, h2⟩
    · exact Or.inr ⟨e', List.mem_cons_of_mem e he', h⟩

/-- In contained mode the best distance never increases. -/
theorem fuzzyLoop_dist_mono (isContained : GFXFormat → GFXFormat → Bool)
    (fmt : GFXFormat) :
    ∀ (l : List FormatEntry) (st : FuzzyState), st.contained = true →
      (fuzzyLoop isContained fmt st l).dist ≤ st.dist := by
  intro l
  induction l with
  | nil =>
    intro st _
    exact le_refl _
  | cons e es ih =>
    intro st hst
    rw [fuzzyLoop]
    simp only [fuzzyUpdate, hst, if_true]
    split
    · rename_i hsel
      exact le_trans (ih _ (by simp [hsel.1])) (le_of_lt hsel.2)
    · exact ih st hst

/-- Once contained, the final distance is at most the distance of every
    containing candidate. -/
theorem fuzzyLoop_min_contained (isContained : GFXFormat → GFXFormat → Bool)
    (fmt : GFXFormat) :
    ∀ (l : List FormatEntry) (st : FuzzyState), ∀ e ∈ l,
      isContained e.fmt fmt = true →
      (fuzzyLoop isContained fmt st l).dist ≤ GET_DISTANCE e.fmt fmt := by
  intro l
  induction l with
  | nil =>
    intro st e he
    cases he
  | cons hd tl ih =>
    intro st e he hcont
    rw [fuzzyLoop]
    rcases List.mem_cons.mp he with rfl | he'
    · cases hst : st.contained
      · have hsel : fuzzyUpdate isContained fmt st e =
            ⟨e.fmt, isContained e.fmt fmt, GET_DISTANCE e.fmt fmt⟩ := by
          simp only [fuzzyUpdate, hst]
          rw [if_pos]
          simp [hcont]
        rw [hsel]
        exact fuzzyLoop_dist_mono isContained fmt tl _ (by simp [hcont])
      · simp only [fuzzyUpdate, hst, if_true]
        split
        · rename_i hsel
          exact fuzzyLoop_dist_mono isContained fmt tl _ (by simp [hsel.1])
        · rename_i hsel
          have hge : st.dist ≤ GET_DISTANCE e.fmt fmt := by
            by_contra hcon
            exact hsel ⟨hcont, by omega⟩
          exact le_trans (fuzzyLoop_dist_mono isContained fmt tl st hst) hge
    · exact ih _ e he' hcont

/-- With no containing candidate anywhere, the final distance is at most
    the incoming one and at most every candidate's distance. -/
theorem fuzzyLoop_min_uncontained (isContained : GFXFormat → GFXFormat → Bool)
    (fmt : GFXFormat) :
    ∀ (l : List FormatEntry) (st : FuzzyState), st.contained = false →
      (∀ e ∈ l, isContained e.fmt fmt = false) →
      (fuzzyLoop isContained fmt st l).dist ≤ st.dist ∧
      ∀ e ∈ l, (fuzzyLoop isContained fmt st l).dist ≤
        GET_DISTANCE e.fmt fmt := by
  intro l
  induction l with
  | nil =>
    intro st _ _
    exact ⟨le_refl _, fun e he => absurd he (List.not_mem_nil e)⟩
  | cons hd tl ih =>
    intro st hst hnone
    have hhd : isContained hd.fmt fmt = false :=
      hnone hd (List.mem_cons_self hd tl)
    rw [fuzzyLoop]
    simp only [fuzzyUpdate, hst, if_false, hhd]
    by_cases hsel : GET_DISTANCE hd.fmt fmt < st.dist
    · rw [if_pos (by simp [hsel])]
      obtain ⟨hmono, hmin⟩ := ih
        ⟨hd.fmt, false, GET_DISTANCE hd.fmt fmt⟩ rfl
        (fun e he => hnone e (List.mem_cons_of_mem hd he))
      refine ⟨le_trans hmono (le_of_lt hsel), ?_⟩
      intro e he
      rcases List.mem_cons.mp he with rfl | he'
      · exact hmono
      · exact hmin e he'
    · rw [if_neg (by simp [hsel, hhd])]
      obtain ⟨hmono, hmin⟩ := ih st hst
        (fun e he => hnone e (List.mem_cons_of_mem hd he))
      refine ⟨hmono, ?_⟩
      intro e he
      rcases List.mem_cons.mp he with rfl | he'
      · exact le_trans hmono (by omega)
      · exact hmin e he'

/-- One update step either keeps the state or — when the containment
    class is unchanged — strictly shrinks the best distance. -/
theorem fuzzyUpdate_step_rel (isContained : GFXFormat → GFXFormat → Bool)
    (fmt : GFXFormat) (st : FuzzyState) (e : FormatEntry) :
    fuzzyUpdate isContained fmt st e = st ∨
      ((fuzzyUpdate isContained fmt st e).contained = st.contained →
        (fuzzyUpdate isContained fmt st e).dist < st.dist) := by
  simp only [fuzzyUpdate]
  split <;> rename_i h1 <;> split <;> rename_i h2
  · exact Or.inr fun _ => h2.2
  · exact Or.inl rfl
  · refine Or.inr fun hc => ?_
    rcases h2 with h2c | h2d
    · exfalso
      rw [h2c] at hc
      exact h1 hc.symm
    · exact h2d
  · exact Or.inl rfl

/-- Along the loop, whenever the containment class of the result equals
    the incoming one and the state moved at all, the distance strictly
    decreased. -/
theorem fuzzyLoop_step_rel (isContained : GFXFormat → GFXFormat → Bool)
    (fmt : GFXFormat) :
    ∀ (l : List FormatEntry) (st : FuzzyState),
      fuzzyLoop isContained fmt st l = st ∨
      ((fuzzyLoop isContained fmt st l).contained = st.contained →
        (fuzzyLoop isContained fmt st l).dist < st.dist) := by
  intro l
  induction l with
  | nil =>
    intro st
    exact Or.inl rfl
  | cons e es ih =>
    intro st
    rw [fuzzyLoop]
    rcases ih (fuzzyUpdate isContained fmt st e) with hres | himp
    · rw [hres]
      exact fuzzyUpdate_step_rel isContained fmt st e
    · rcases fuzzyUpdate_step_rel isContained fmt st e with hup | hupimp
      · rw [hup] at himp ⊢
        exact Or.inr himp
      · refine Or.inr fun hc => ?_
        have hlc := fuzzyLoop_contained isContained fmt es
          (fuzzyUpdate isContained fmt st e)
        have huc := fuzzyUpdate_contained isContained fmt st e
        cases hst : st.contained
        · rw [hst] at hc
          have hsc : (fuzzyUpdate isContained fmt st e).contained = false := by
            have := hlc.symm.trans hc
            exact Bool.or_eq_false_iff.mp this |>.1
          exact lt_trans (himp (hc.trans hsc.symm))
            (hupimp (hsc.trans hst.symm))
        · have hsc : (fuzzyUpdate isContained fmt st e).contained = true := by
            rw [huc, hst]
            simp
          rw [hst] at hc
          exact lt_trans (himp (hc.trans hsc.symm))
            (hupimp (hsc.trans hst.symm))

/-- The loop result is the first candidate realizing its containment
    class and distance: every earlier candidate of the same class has a
    strictly greater distance. -/
theorem fuzzyLoop_first (isContained : GFXFormat → GFXFormat → Bool)
    (fmt : GFXFormat) :
    ∀ (l : List FormatEntry) (st : FuzzyState),
      fuzzyLoop isContained fmt st l = st ∨
      ∃ (i : Nat) (hi : i < l.length),
        fuzzyLoop isContained fmt st l =
          ⟨(l[i]).fmt, isContained (l[i]).fmt fmt,
            GET_DISTANCE (l[i]).fmt fmt⟩ ∧
        ∀ (j : Nat) (hj : j < i),
          isContained ((l.get ⟨j, Nat.lt_trans hj hi⟩).fmt) fmt =
            (fuzzyLoop isContained fmt st l).contained →
          (fuzzyLoop isContained fmt st l).dist <
            GET_DISTANCE ((l.get ⟨j, Nat.lt_trans hj hi⟩).fmt) fmt := by
  intro l
  induction l with
  | nil =>
    intro st
    exact Or.inl rfl
  | cons hd tl ih =>
    intro st
    have hupdate : fuzzyUpdate isContained fmt st hd =
        (if (if st.contained = true
            then (isContained hd.fmt fmt = true ∧
              GET_DISTANCE hd.fmt fmt < st.dist)
            else (isContained hd.fmt fmt = true ∨
              GET_DISTANCE hd.fmt fmt < st.dist))
         then (⟨hd.fmt, isContained hd.fmt fmt,
            GET_DISTANCE hd.fmt fmt⟩ : FuzzyState)
         else st) := rfl
    rw [fuzzyLoop]
    by_cases hsel : (if st.contained = true
        then (isContained hd.fmt fmt = true ∧
          GET_DISTANCE hd.fmt fmt < st.dist)
        else (isContained hd.fmt fmt = true ∨
          GET_DISTANCE hd.fmt fmt < st.dist))
    · rw [hupdate, if_pos hsel]
      by_cases hr : fuzzyLoop isContained fmt
          ⟨hd.fmt, isContained hd.fmt fmt, GET_DISTANCE hd.fmt fmt⟩ tl =
          ⟨hd.fmt, isContained hd.fmt fmt, GET_DISTANCE hd.fmt fmt⟩
      · refine Or.inr ⟨0, by simp, by rw [hr]; rfl,
          fun j hj => absurd hj (Nat.not_lt_zero j)⟩
      · rcases ih ⟨hd.fmt, isContained hd.fmt fmt,
          GET_DISTANCE hd.fmt fmt⟩ with hres | ⟨i', hi', hmatch, hfirst⟩
        · exact absurd hres hr
        · refine Or.inr ⟨i' + 1, by simpa using hi', by simpa using hmatch,
            ?_⟩
          intro j hj hcj
          cases j with
          | zero =>
            rcases fuzzyLoop_step_rel isContained fmt tl
              ⟨hd.fmt, isContained hd.fmt fmt, GET_DISTANCE hd.fmt fmt⟩
              with hres | himp
            · exact absurd hres hr
            · simp only [List.get_eq_getElem, List.getElem_cons_zero]
                at hcj ⊢
              exact himp hcj.symm
          | succ j' =>
            have hj' : j' < i' := by omega
            have := hfirst j' hj'
            simp only [List.get_eq_getElem] at this
            simp only [List.get_eq_getElem, List.getElem_cons_succ]
              at hcj ⊢
            exact this hcj
    · rw [hupdate, if_neg hsel]
      by_cases hr : fuzzyLoop isContained fmt st tl = st
      · exact Or.inl hr
      · rcases ih st with hres | ⟨i', hi', hmatch, hfirst⟩
        · exact absurd hres hr
        · refine Or.inr ⟨i' + 1, by simpa using hi', by simpa using hmatch,
            ?_⟩
          intro j hj hcj
          cases j with
          | zero =>
            rcases fuzzyLoop_step_rel isContained fmt tl st
              with hres | himp
            · exact absurd hres hr
            · simp only [List.get_eq_getElem, List.getElem_cons_zero]
                at hcj ⊢
              cases hst : st.contained
              · simp only [hst, Bool.false_eq_true, if_false] at hsel
                push_neg at hsel
                have hcont : isContained hd.fmt fmt = false := by
                  cases hcf : isContained hd.fmt fmt
                  · rfl
                  · exact absurd hcf hsel.1
                have hlc : (fuzzyLoop isContained fmt st tl).contained =
                    false := by
                  rw [← hcj, hcont]
                exact lt_of_lt_of_le (himp (hlc.trans hst.symm)) hsel.2
              · have hlc : (fuzzyLoop isContained fmt st tl).contained =
                    true := by
                  rw [fuzzyLoop_contained, hst]
                  simp
                have hcont : isContained hd.fmt fmt = true :=
                  hcj.symm ▸ hlc
                simp only [hst, if_true] at hsel
                have hge : st.dist ≤ GET_DISTANCE hd.fmt fmt := by
                  by_contra hcon
                  exact hsel ⟨hcont, by omega⟩
                exact lt_of_lt_of_le (himp (hlc.trans hst.symm)) hge
          | succ j' =>
            have hj' : j' < i' := by omega
            have := hfirst j' hj'
            simp only [List.get_eq_getElem] at this
            simp only [List.get_eq_getElem, List.getElem_cons_succ]
              at hcj ⊢
            exact this hcj

/-- C7: `gfx_format_fuzzy` (for any containment and compression
    predicates) returns GFX_FORMAT_EMPTY when no registry entry passes
    the type/order, feature and MIN_DEPTH/MAX_DEPTH filters; otherwise
    it returns the format of a filtered candidate that is containing
    exactly when some filtered candidate is containing (so a containing
    candidate always beats any non-containing one, regardless of
    distance), has the smallest channel-bit L1 distance within its
    containment class, and is the first candidate achieving that
    distance in its class. -/
theorem gfx_format_fuzzy_correct (isContained : GFXFormat → GFXFormat → Bool)
    (isCompressed : GFXFormat → Bool) (formats : List FormatEntry)
    (fmt : GFXFormat) (flags features : Nat)
    (hb : ∀ e ∈ formats.filter (fuzzyAccepts isCompressed fmt flags features),
      GET_DISTANCE e.fmt fmt < UINT_MAX) :
    (formats.filter (fuzzyAccepts isCompressed fmt flags features) = [] →
      gfx_format_fuzzy isContained isCompressed formats fmt flags features =
        GFX_FORMAT_EMPTY) ∧
    (formats.filter (fuzzyAccepts isCompressed fmt flags features) ≠ [] →
      ∃ (i : Nat) (hi : i < (formats.filter
          (fuzzyAccepts isCompressed fmt flags features)).length),
        gfx_format_fuzzy isContained isCompressed formats fmt flags
            features =
          ((formats.filter
            (fuzzyAccepts isCompressed fmt flags features))[i]).fmt ∧
        isContained ((formats.filter
            (fuzzyAccepts isCompressed fmt flags features))[i]).fmt fmt =
          (formats.filter (fuzzyAccepts isCompressed fmt flags
            features)).any (fun e => isContained e.fmt fmt) ∧
        (∀ e ∈ formats.filter (fuzzyAccepts isCompressed fmt flags
            features),
          isContained e.fmt fmt =
            isContained ((formats.filter (fuzzyAccepts isCompressed fmt
              flags features))[i]).fmt fmt →
          GET_DISTANCE ((formats.filter (fuzzyAccepts isCompressed fmt
              flags features))[i]).fmt fmt ≤ GET_DISTANCE e.fmt fmt) ∧
        (∀ (j : Nat) (hj : j < i),
          isContained (((formats.filter (fuzzyAccepts isCompressed fmt
              flags features)).get ⟨j, Nat.lt_trans hj hi⟩).fmt) fmt =
            isContained ((formats.filter (fuzzyAccepts isCompressed fmt
              flags features))[i]).fmt fmt →
          GET_DISTANCE ((formats.filter (fuzzyAccepts isCompressed fmt
              flags features))[i]).fmt fmt <
            GET_DISTANCE (((formats.filter (fuzzyAccepts isCompressed fmt
              flags features)).get ⟨j, Nat.lt_trans hj hi⟩).fmt) fmt)) := by
  have hloop : gfx_format_fuzzy isContained isCompressed formats fmt flags
      features =
      (fuzzyLoop isContained fmt fuzzyInit (formats.filter
        (fuzzyAccepts isCompressed fmt flags features))).retFmt := by
    rw [gfx_format_fuzzy, fuzzyLoopFull_eq_filter]
  constructor
  · intro hnil
    rw [hloop, hnil]
    rfl
  · intro hne
    obtain ⟨c, cs, hcons⟩ := List.exists_cons_of_ne_nil hne
    have hbc : GET_DISTANCE c.fmt fmt < UINT_MAX :=
      hb c (hcons ▸ List.mem_cons_self c cs)
    have hsel0 : fuzzyUpdate isContained fmt fuzzyInit c =
        ⟨c.fmt, isContained c.fmt fmt, GET_DISTANCE c.fmt fmt⟩ := by
      simp only [fuzzyUpdate, fuzzyInit]
      rw [if_pos]
      simp only [Bool.false_eq_true, if_false]
      exact Or.inr hbc
    have hr_ne : fuzzyLoop isContained fmt fuzzyInit (formats.filter
        (fuzzyAccepts isCompressed fmt flags features)) ≠ fuzzyInit := by
      rw [hcons, fuzzyLoop, hsel0]
      rcases fuzzyLoop_mem isContained fmt cs
        ⟨c.fmt, isContained c.fmt fmt, GET_DISTANCE c.fmt fmt⟩
        with hres | ⟨e, he, hres⟩
      · rw [hres]
        intro hcontra
        have := congrArg FuzzyState.dist hcontra
        simp only [fuzzyInit] at this
        omega
      · rw [hres]
        intro hcontra
        have := congrArg FuzzyState.dist hcontra
        simp only [fuzzyInit] at this
        have hbe : GET_DISTANCE e.fmt fmt < UINT_MAX :=
          hb e (hcons ▸ List.mem_cons_of_mem c he)
        omega
    rcases fuzzyLoop_first isContained fmt (formats.filter
        (fuzzyAccepts isCompressed fmt flags features)) fuzzyInit
      with hres | ⟨i, hi, hmatch, hfirst⟩
    · exact absurd hres hr_ne
    have hclassany : isContained ((formats.filter (fuzzyAccepts
        isCompressed fmt flags features))[i]).fmt fmt =
        (formats.filter (fuzzyAccepts isCompressed fmt flags
          features)).any (fun e => isContained e.fmt fmt) := by
      have hcontain := fuzzyLoop_contained isContained fmt (formats.filter
        (fuzzyAccepts isCompressed fmt flags features)) fuzzyInit
      rw [hmatch] at hcontain
      simpa [fuzzyInit] using hcontain
    refine ⟨i, hi, by rw [hloop, hmatch], hclassany, ?_, ?_⟩
    · intro e he hclass
      cases hcl : isContained ((formats.filter (fuzzyAccepts isCompressed
          fmt flags features))[i]).fmt fmt
      · have hnone : ∀ e' ∈ formats.filter (fuzzyAccepts isCompressed fmt
            flags features), isContained e'.fmt fmt = false := by
          intro e' he'
          cases hc' : isContained e'.fmt fmt
          · rfl
          · exfalso
            have hany : (formats.filter (fuzzyAccepts isCompressed fmt
                flags features)).any (fun e => isContained e.fmt fmt) =
                true :=
              List.any_eq_true.mpr ⟨e', he', hc'⟩
            rw [← hclassany, hcl] at hany
            exact Bool.false_ne_true hany
        obtain ⟨_, hmin⟩ := fuzzyLoop_min_uncontained isContained fmt
          (formats.filter (fuzzyAccepts isCompressed fmt flags features))
          fuzzyInit rfl hnone
        have := hmin e he
        rw [hmatch] at this
        exact this
      · have := fuzzyLoop_min_contained isContained fmt
          (formats.filter (fuzzyAccepts isCompressed fmt flags features))
          fuzzyInit e he (hclass.trans hcl)
        rw [hmatch] at this
        exact this
    · intro j hj hclass
      have := hfirst j hj
      rw [hmatch] at this
      exact this hclass

/-- Modelled from the spec: `GFX_FORMAT_IS_CONTAINED(fmta, fmtb)`
    (public formats header, not among the sources): `fmta` contains
    `fmtb` when its type and order bits lie within `fmtb`'s and it
    offers at least `fmtb`'s channel bit depths. Used only to
    instantiate the containment-predicate parameter of the witness. -/
def GFX_FORMAT_IS_CONTAINED (a b : GFXFormat) : Bool :=
  ((a.type &&& b.type) == a.type) && ((a.order &&& b.order) == a.order) &&
  decide (b.comps0 ≤ a.comps0) && decide (b.comps1 ≤ a.comps1) &&
  decide (b.comps2 ≤ a.comps2) && decide (b.comps3 ≤ a.comps3)

/-- Modelled from the spec: `GFX_FORMAT_IS_COMPRESSED` (public formats
    header) — none of the witness registry's formats is
    block-compressed, so the predicate is false on them. -/
def GFX_FORMAT_IS_COMPRESSED (_ : GFXFormat) : Bool := false

def c7Fmt8 : GFXFormat :=
  { comps0 := 8, comps1 := 8, comps2 := 8, comps3 := 8
    type := 1, order := 1 }

def c7Fmt16 : GFXFormat :=
  { comps0 := 16, comps1 := 16, comps2 := 16, comps3 := 16
    type := 1, order := 1 }

def c7Query : GFXFormat :=
  { comps0 := 10, comps1 := 10, comps2 := 10, comps3 := 10
    type := 1, order := 1 }

def c7Formats : List FormatEntry :=
  [{ fmt := c7Fmt8, features := 3 }, { fmt := c7Fmt16, features := 3 }]

/-- C7, witnessed on a registry of an 8-bit and a 16-bit RGBA-like
    format, queried at depth 10 with the MIN_DEPTH flag: the 8-bit
    entry is filtered out and the 16-bit containing entry is returned. -/
theorem gfx_format_fuzzy_correct_witness :
    c7Formats.filter (fuzzyAccepts GFX_FORMAT_IS_COMPRESSED c7Query
      GFX_FUZZY_MIN_DEPTH 1) ≠ [] ∧
    ∃ (i : Nat) (hi : i < (c7Formats.filter
        (fuzzyAccepts GFX_FORMAT_IS_COMPRESSED c7Query
          GFX_FUZZY_MIN_DEPTH 1)).length),
      gfx_format_fuzzy GFX_FORMAT_IS_CONTAINED GFX_FORMAT_IS_COMPRESSED
          c7Formats c7Query GFX_FUZZY_MIN_DEPTH 1 =
        ((c7Formats.filter (fuzzyAccepts GFX_FORMAT_IS_COMPRESSED c7Query
          GFX_FUZZY_MIN_DEPTH 1))[i]).fmt ∧
      GFX_FORMAT_IS_CONTAINED ((c7Formats.filter
          (fuzzyAccepts GFX_FORMAT_IS_COMPRESSED c7Query
            GFX_FUZZY_MIN_DEPTH 1))[i]).fmt c7Query =
        (c7Formats.filter (fuzzyAccepts GFX_FORMAT_IS_COMPRESSED c7Query
          GFX_FUZZY_MIN_DEPTH 1)).any
          (fun e => GFX_FORMAT_IS_CONTAINED e.fmt c7Query) :=
  ⟨by decide,
   match (gfx_format_fuzzy_correct GFX_FORMAT_IS_CONTAINED
      GFX_FORMAT_IS_COMPRESSED c7Formats c7Query GFX_FUZZY_MIN_DEPTH 1
      (by decide)).2 (by decide) with
   | ⟨i, hi, h1, h2, _, _⟩ => ⟨i, hi, h1, h2⟩⟩

end Groufix
